import Mathlib

/-!
Verification development for the `gatsby-source-contentful` normalization and
image-derivative engine (files `normalize.js` and `extend-node-type.js`).

The JavaScript sources are shallowly embedded: JS numbers are modelled as `ℚ`
(with the Lean convention `q / 0 = 0`; no claim below depends on the behaviour
of division by zero), JS values as the inductive `JValue` (with a separate
`undef` constructor, since the source distinguishes `undefined` from `null`
via `_.isUndefined`), JS objects as insertion-ordered association lists, and
`Math.round` as floor of `x + 1/2`, which is the ECMAScript rounding rule.
-/

namespace Contentful

/-- A JavaScript runtime value, as manipulated by `normalize.js`.  `undef`
models `undefined` (absent object properties read back as `undef`). -/
inductive JValue where
  | undef
  | null
  | bool (b : Bool)
  | num (q : ℚ)
  | str (s : String)
  | arr (elems : List JValue)
  | obj (fields : List (String × JValue))

/-- A JS object: an insertion-ordered association list of properties. -/
abbrev JObj := List (String × JValue)

namespace JValue

/-- JS truthiness of a value (`undefined`, `null`, `false`, `0`, `""` are falsy). -/
def truthy : JValue → Bool
  | .undef => false
  | .null => false
  | .bool b => b
  | .num q => q != 0
  | .str s => s != ""
  | .arr _ => true
  | .obj _ => true

/-- The `_.isUndefined` check from lodash. -/
def isUndef : JValue → Bool
  | .undef => true
  | _ => false

end JValue

/-- Property read `o[k]` on an object; any absent key (and any read on a
non-object, matching `undefined` property access after an `&&` guard in the
source) yields `undef`. -/
def jsGet (o : JObj) (k : String) : JValue :=
  match o.find? (fun p => p.1 == k) with
  | some p => p.2
  | none => (.undef)

/-- Property write `o[k] = v`: an existing key keeps its position and gets the
new value, a new key is appended, matching JS object insertion order. -/
def jsSet (o : JObj) (k : String) (v : JValue) : JObj :=
  if o.any (fun p => p.1 == k) then
    o.map (fun p => if p.1 == k then (p.1, v) else p)
  else
    o ++ [(k, v)]

/-- The `delete o[k]` operation. -/
def jsDelete (o : JObj) (k : String) : JObj :=
  o.filter (fun p => p.1 != k)

/-- Property read on an arbitrary value: only objects carry properties. -/
def jvGet (v : JValue) (k : String) : JValue :=
  match v with
  | .obj fs => jsGet fs k
  | _ => (.undef)

/-- Two-step property read `v[k1][k2]`. -/
def jvGet2 (v : JValue) (k1 k2 : String) : JValue :=
  jvGet (jvGet v k1) k2

/-- String coercion of a value, as performed by a template literal; the
strings our data uses are `.str` values, the other cases mirror the JS
coercions for primitive values. -/
def jvStr : JValue → String
  | .undef => "undefined"
  | .null => "null"
  | .bool b => if b then "true" else "false"
  | .num q => toString q
  | .str s => s
  | .arr _ => ""
  | .obj _ => "[object Object]"

/-- The object-literal spread `{...a, ...b}`: `a`'s keys in order (a key also
present in `b` takes `b`'s value), then `b`'s keys not in `a`, in order. -/
def jsSpread2 (a b : JObj) : JObj :=
  a.map (fun p => if b.any (fun q => q.1 == p.1) then (p.1, jsGet b p.1) else p)
    ++ b.filter (fun q => !a.any (fun p => p.1 == q.1))

/-- ECMAScript `Math.round`: floor of `x + 1/2`. -/
def jsRound (x : ℚ) : ℚ :=
  ((⌊x + 1 / 2⌋ : ℤ) : ℚ)

/-- Truthiness of an optional JS number (absent and `0` are falsy). -/
def optNumTruthy (o : Option ℚ) : Bool :=
  match o with
  | none => false
  | some q => q != 0

/-- Falsiness of an optional JS string (absent and `""` are falsy); this is
the `!options.resizingBehavior` test of the source. -/
def optStrFalsy (o : Option String) : Bool :=
  match o with
  | none => true
  | some s => s == ""

/-! ## `extend-node-type.js`: the image-derivative engine -/

/-- The `file` sub-record of a Contentful asset node, with the fields the
image resolvers read (`file.url`, `file.contentType`,
`file.details.image.width/height`). -/
structure ImageFile where
  url : String
  contentType : String
  width : ℚ
  height : ℚ

/-- An asset node as consumed by `resolveFixed`/`resolveFluid`/`resolveResize`;
`file` is optional because `isImage` uses the optional chain `image?.file?`. -/
structure Image where
  file : Option ImageFile

/-- The keys of `mimeTypeExtensions`, the raster-format allow-list. -/
def mimeTypeExtensionKeys : List String :=
  ["image/jpeg", "image/jpg", "image/gif", "image/png", "image/webp"]

/-- `isImage`: the asset's declared media type is a supported raster format. -/
def isImage (image : Image) : Bool :=
  match image.file with
  | some f => mimeTypeExtensionKeys.contains f.contentType
  | none => false

/-- `CONTENTFUL_IMAGE_MAX_SIZE` -/
def CONTENTFUL_IMAGE_MAX_SIZE : ℚ := 4000

/-- Caller options of `resolveFixed` and `resolveResize` (the fields that
participate in the dimension/crop logic; the remaining options are passed
through to URL construction unchanged and are not modelled). -/
structure FixedOptions where
  width : Option ℚ
  height : Option ℚ
  resizingBehavior : Option String

/-- Caller options of `resolveFluid`. -/
structure FluidOptions where
  maxWidth : Option ℚ
  maxHeight : Option ℚ
  resizingBehavior : Option String
  sizes : Option String

/-- `getBasicImageProps(image, args)`: the source dimensions and the aspect
ratio (overridden by explicit truthy `args.width && args.height`). -/
structure BasicImageProps where
  baseUrl : String
  contentType : String
  aspectRatio : ℚ
  width : ℚ
  height : ℚ

/-- Embedding of `getBasicImageProps` for a present `file`. -/
def getBasicImageProps (f : ImageFile) (argWidth argHeight : Option ℚ) : BasicImageProps :=
  let aspectRatio :=
    if optNumTruthy argWidth && optNumTruthy argHeight then
      argWidth.getD 0 / argHeight.getD 0
    else
      f.width / f.height
  { baseUrl := f.url
    contentType := f.contentType
    aspectRatio := aspectRatio
    width := f.width
    height := f.height }

/-- Result of `resolveFixed`.  `srcSet` keeps the `(width, height)` pair of
every generated candidate in emission order; `resizingBehavior` is the final
value of `options.resizingBehavior`, which `createUrl` turns into the `fit`
query parameter of `src` and of every `srcSet` entry. -/
structure FixedResult where
  aspectRatio : ℚ
  width : ℚ
  height : ℚ
  resizingBehavior : Option String
  srcSet : List (ℚ × ℚ)

/-- Embedding of `resolveFixed` (lines 195-300 of `extend-node-type.js`). -/
def resolveFixed (image : Image) (options : FixedOptions) : Option FixedResult :=
  if !isImage image then none else
  match image.file with
  | none => none
  | some f =>
    let bp := getBasicImageProps f options.width options.height
    let desiredAspectRatio0 := bp.aspectRatio
    -- If no dimension is given, set a default width
    let o1 :=
      if options.width.isNone && options.height.isNone then
        { options with width := some 400 }
      else options
    -- If only a height is given, calculate the width from height and aspect ratio
    let o2 :=
      if o1.height.isSome && o1.width.isNone then
        { o1 with width := some (jsRound (o1.height.getD 0 * desiredAspectRatio0)) }
      else o1
    -- If we're cropping, calculate the specified aspect ratio
    let desiredAspectRatio :=
      if o2.width.isSome && o2.height.isSome then
        o2.width.getD 0 / o2.height.getD 0
      else desiredAspectRatio0
    -- If the user selected a height and width (so cropping) and no fit option, default it
    let o3 :=
      if o2.width.isSome && o2.height.isSome then
        if optStrFalsy o2.resizingBehavior then
          { o2 with resizingBehavior := some "fill" }
        else o2
      else o2
    let w := o3.width.getD 0
    let fixedSizes := [w, w * 3 / 2, w * 2, w * 3].map jsRound
    let filteredSizes := fixedSizes.filter (fun size =>
      decide (size ≤ CONTENTFUL_IMAGE_MAX_SIZE
        ∧ jsRound (size / desiredAspectRatio) ≤ CONTENTFUL_IMAGE_MAX_SIZE
        ∧ size ≤ bp.width))
    let sortedSizes := filteredSizes.insertionSort (· ≤ ·)
    let srcSet := sortedSizes.map (fun size => (size, jsRound (size / desiredAspectRatio)))
    let pickedPair :=
      if optNumTruthy o3.height then
        (o3.height.getD 0 * desiredAspectRatio, o3.height.getD 0)
      else
        (w, w / desiredAspectRatio)
    some
      { aspectRatio := desiredAspectRatio
        width := jsRound pickedPair.1
        height := jsRound pickedPair.2
        resizingBehavior := o3.resizingBehavior
        srcSet := srcSet }

/-- Result of `resolveFluid`; `resizingBehavior` is again the final options
value (the fluid resolver never writes it). -/
structure FluidResult where
  aspectRatio : ℚ
  resizingBehavior : Option String
  srcSet : List (ℚ × ℚ)
  sizes : String

/-- Embedding of `resolveFluid` (lines 303-392 of `extend-node-type.js`). -/
def resolveFluid (image : Image) (options : FluidOptions) : Option FluidResult :=
  if !isImage image then none else
  match image.file with
  | none => none
  | some f =>
    let bp := getBasicImageProps f options.maxWidth options.maxHeight
    let desiredAspectRatio0 := bp.aspectRatio
    -- If no dimension is given, set a default maxWidth
    let o1 :=
      if options.maxWidth.isNone && options.maxHeight.isNone then
        { options with maxWidth := some 800 }
      else options
    -- If only a maxHeight is given, calculate maxWidth from it and the aspect ratio
    let o2 :=
      if o1.maxHeight.isSome && o1.maxWidth.isNone then
        { o1 with maxWidth := some (jsRound (o1.maxHeight.getD 0 * desiredAspectRatio0)) }
      else o1
    -- If we're cropping, calculate the specified aspect ratio
    let desiredAspectRatio :=
      if o2.maxHeight.isSome && o2.maxWidth.isSome then
        o2.maxWidth.getD 0 / o2.maxHeight.getD 0
      else desiredAspectRatio0
    let mw := o2.maxWidth.getD 0
    -- If the user didn't set a sizes value, make a default one
    let sizesStr :=
      if optStrFalsy o2.sizes then
        "(max-width: " ++ toString mw ++ "px) 100vw, " ++ toString mw ++ "px"
      else o2.sizes.getD ""
    let fluidSizes := [mw / 4, mw / 2, mw, mw * 3 / 2, mw * 2, mw * 3].map jsRound
    let filteredSizes := fluidSizes.filter (fun size =>
      decide (size ≤ CONTENTFUL_IMAGE_MAX_SIZE
        ∧ jsRound (size / desiredAspectRatio) ≤ CONTENTFUL_IMAGE_MAX_SIZE
        ∧ size ≤ bp.width))
    -- Add the original image width (if absent and within caps)
    let filteredSizes1 :=
      if !filteredSizes.contains bp.width
          && decide (bp.width < CONTENTFUL_IMAGE_MAX_SIZE)
          && decide (jsRound (bp.width / desiredAspectRatio) < CONTENTFUL_IMAGE_MAX_SIZE) then
        filteredSizes ++ [bp.width]
      else filteredSizes
    let sortedSizes := filteredSizes1.insertionSort (· ≤ ·)
    let srcSet := sortedSizes.map (fun size => (size, jsRound (size / desiredAspectRatio)))
    some
      { aspectRatio := desiredAspectRatio
        resizingBehavior := o2.resizingBehavior
        srcSet := srcSet
        sizes := sizesStr }

/-- Result of `resolveResize`. -/
structure ResizeResult where
  width : ℚ
  height : ℚ
  aspectRatio : ℚ
  resizingBehavior : Option String

/-- Embedding of `resolveResize` (lines 394-430 of `extend-node-type.js`). -/
def resolveResize (image : Image) (options : FixedOptions) : Option ResizeResult :=
  if !isImage image then none else
  match image.file with
  | none => none
  | some f =>
    let bp := getBasicImageProps f options.width options.height
    -- If no dimension is given, set a default width
    let o1 :=
      if options.width.isNone && options.height.isNone then
        { options with width := some 400 }
      else options
    -- If the user selected a height and width (so cropping) and no fit option, default it
    let o2 :=
      if o1.width.isSome && o1.height.isSome then
        if optStrFalsy o1.resizingBehavior then
          { o1 with resizingBehavior := some "fill" }
        else o1
      else o1
    let pickedWidth :=
      match o2.width with
      | some w => w
      | none => o2.height.getD 0 * bp.aspectRatio
    let pickedHeight :=
      match o2.height with
      | some h => h
      | none => pickedWidth / bp.aspectRatio
    some
      { width := jsRound pickedWidth
        height := jsRound pickedHeight
        aspectRatio := bp.aspectRatio
        resizingBehavior := o2.resizingBehavior }

/-! ## `extend-node-type.js`: the base64 placeholder cache -/

/-- JS `String.prototype.indexOf(sub) !== -1`, i.e. substring containment. -/
def jsIncludes (s sub : String) : Bool :=
  decide (sub.toList <:+: s.toList)

/-- The option bag accepted by `createUrl` (semantic names; absent values are
omitted from the query string). -/
structure UrlOptions where
  width : Option ℚ := none
  height : Option ℚ := none
  toFormat : Option String := none
  jpegProgressive : Bool := false
  quality : Option ℚ := none
  resizingBehavior : Option String := none
  cropFocus : Option String := none
  background : Option String := none

/-- Embedding of `createUrl(imgUrl, options)`: maps the semantic option names
to the short Contentful parameter names in the fixed key order of `urlArgs`,
drops absent/falsy-coalesced values like `qs.stringify` does, and prepends
`https:`. -/
def createUrl (imgUrl : String) (options : UrlOptions) : String :=
  let numArg (o : Option ℚ) : Option String :=
    if optNumTruthy o then some (toString (o.getD 0)) else none
  let strArg (o : Option String) : Option String :=
    if optStrFalsy o then none else o
  let urlArgs : List (String × Option String) :=
    [ ("w", numArg options.width),
      ("h", numArg options.height),
      ("fl", if options.toFormat == some "jpg" && options.jpegProgressive
             then some "progressive" else none),
      ("q", numArg options.quality),
      ("fm", strArg options.toFormat),
      ("fit", strArg options.resizingBehavior),
      ("f", strArg options.cropFocus),
      ("bg", strArg options.background) ]
  "https:" ++ imgUrl ++ "?" ++
    String.intercalate "&" (urlArgs.filterMap (fun p => p.2.map (fun v => p.1 ++ "=" ++ v)))

/-- State of the two module-level caches of `extend-node-type.js`:
`inFlightBase64Cache` maps a request URL to the promise stored for it
(promises are modelled by allocation ids), `resolvedBase64Cache` maps a
request URL to its completed base64 payload, and `nextId` allocates fresh
promise ids. -/
structure B64Cache where
  inFlight : List (String × Nat)
  resolved : List (String × String)
  nextId : Nat

/-- The empty initial cache state. -/
def B64Cache.empty : B64Cache := { inFlight := [], resolved := [], nextId := 0 }

/-- What a call to `getBase64Image` hands back to its caller. -/
inductive B64Result where
  | nullResult
  | sync (body : String)
  | inflight (pid : Nat)
  | fetched (pid : Nat)

/-- Whether a call outcome dispatched a new underlying fetch. -/
def B64Result.dispatches : B64Result → Bool
  | .fetched _ => true
  | _ => false

/-- The `imageProps` argument of `getBase64Image`: only `baseUrl` is read. -/
structure B64Props where
  baseUrl : String

/-- The derived placeholder-thumbnail URL (`createUrl(baseUrl, {width: 20,
toFormat: "jpg"})`). -/
def b64RequestUrl (props : B64Props) : String :=
  createUrl props.baseUrl { width := some 20, toFormat := some "jpg" }

/-- Lookup in one of the two cache maps. -/
def cacheGet {α : Type} (m : List (String × α)) (k : String) : Option α :=
  (m.find? (fun p => p.1 == k)).map (fun p => p.2)

/-- `Map.set`. -/
def cacheSet {α : Type} (m : List (String × α)) (k : String) (v : α) : List (String × α) :=
  if m.any (fun p => p.1 == k) then
    m.map (fun p => if p.1 == k then (p.1, v) else p)
  else
    m ++ [(k, v)]

/-- `Map.delete`. -/
def cacheDelete {α : Type} (m : List (String × α)) (k : String) : List (String × α) :=
  m.filter (fun p => p.1 != k)

/-- Embedding of the synchronous body of `getBase64Image` (lines 56-105 of
`extend-node-type.js`): return `null` for absent props or a non-Contentful
URL, serve a resolved payload synchronously, share an in-flight promise, or
dispatch a fresh fetch and register its promise as in flight.  The returned
`fetched pid` models the `promise.then(...)` handle the first caller gets;
the map stores the same underlying promise `pid`. -/
def getBase64Image (st : B64Cache) (imageProps : Option B64Props) : B64Result × B64Cache :=
  match imageProps with
  | none => (.nullResult, st)
  | some props =>
    if !jsIncludes props.baseUrl "images.ctfassets.net" then (.nullResult, st)
    else
      let requestUrl := b64RequestUrl props
      match cacheGet st.resolved requestUrl with
      | some alreadyFetched => (.sync alreadyFetched, st)
      | none =>
        match cacheGet st.inFlight requestUrl with
        | some inFlightPid => (.inflight inFlightPid, st)
        | none =>
          let pid := st.nextId
          (.fetched pid,
            { st with inFlight := cacheSet st.inFlight requestUrl pid,
                      nextId := pid + 1 })

/-- The fulfillment handler of the registered promise (lines 100-104): delete
the URL from the in-flight map and store the body in the resolved map. -/
def b64SettleSuccess (st : B64Cache) (url : String) (body : String) : B64Cache :=
  { st with inFlight := cacheDelete st.inFlight url,
            resolved := cacheSet st.resolved url body }

/-- Rejection of the registered promise: `promise.then(body => ...)` installs
no rejection handler, so nothing runs — per the comment on line 31
("Promises that rejected should stay in this map") the rejected promise
remains in `inFlightBase64Cache` and `resolvedBase64Cache` is untouched. -/
def b64SettleFailure (st : B64Cache) (url : String) : B64Cache :=
  let _ := url
  st

/-! ## `normalize.js`: data model -/

/-- A locale record as consumed by `buildFallbackChain`. -/
structure Locale where
  code : String
  fallbackCode : Option String

/-- The `sys` sub-record of an entry or asset. -/
structure EntrySys where
  id : String
  type : String
  createdAt : String
  updatedAt : String
  revision : Option ℚ
  contentType : Option String

/-- An entry record: `fields` maps a field id to its locale bag (a JS value,
normally an object keyed by locale code); `metadataTags` holds the sys ids of
`metadata.tags` links. -/
structure Entry where
  sys : EntrySys
  fields : JObj
  metadataTags : List String

/-- An asset record; `fields` may contain the keys `file`, `title` and
`description`, each a locale bag. -/
structure Asset where
  sys : EntrySys
  fields : JObj

/-- One field of a content-type schema. -/
structure ContentTypeField where
  id : String
  type : String
  localized : Bool

/-- The `sys` sub-record of a content-type schema. -/
structure ContentTypeSys where
  id : String
  updatedAt : String

/-- A content-type schema. -/
structure ContentType where
  sys : ContentTypeSys
  name : String
  displayField : String
  description : String
  fields : List ContentTypeField

/-- A previously materialized root node, as read by `buildResolvableSet`
(`node.contentful_id` and `node.sys.type`). -/
structure ExistingNode where
  contentful_id : String
  sysType : String

/-! ## `normalize.js`: core functions -/

/-- `toLowerCase`, modelled for ASCII input at the character level (the
character-wise definition keeps the function kernel-reducible). -/
def jsToLower (s : String) : String :=
  String.mk (s.toList.map Char.toLower)

/-- `_.upperFirst`: upper-cases the first character. -/
def jsUpperFirst (s : String) : String :=
  match s.toList with
  | [] => ""
  | c :: cs => String.mk (c.toUpper :: cs)

/-- Word splitting of `_.camelCase`, modelled for ASCII input: words are
maximal alphanumeric runs, additionally split at a lower-case-or-digit to
upper-case transition. -/
def splitCamelWords (s : String) : List String :=
  let step := fun (st : List String × List Char) (c : Char) =>
    if !c.isAlphanum then
      (if st.2.isEmpty then st.1 else st.1 ++ [String.mk st.2], [])
    else if c.isUpper
        && (match st.2.getLast? with
            | some p => p.isLower || p.isDigit
            | none => false) then
      (st.1 ++ [String.mk st.2], [c])
    else
      (st.1, st.2 ++ [c])
  let r := s.toList.foldl step ([], [])
  if r.2.isEmpty then r.1 else r.1 ++ [String.mk r.2]

/-- `_.camelCase`: first word lower-cased, subsequent words lower-cased then
capitalized, all concatenated. -/
def camelCase (s : String) : String :=
  match splitCamelWords s with
  | [] => ""
  | w :: ws =>
    jsToLower w ++ String.join (ws.map (fun word => jsUpperFirst (jsToLower word)))

/-- `makeTypeName(type)`: `_.upperFirst(_.camelCase("Contentful " + type))`. -/
def makeTypeName (type : String) : String :=
  jsUpperFirst (camelCase ("Contentful " ++ type))

/-- Embedding of `getLocalizedField` (lines 8-23 of `normalize.js`), made
total with a fuel parameter because the source recursion has no cycle guard:
`none` means the recursion is still running after `fuel` unfoldings (in JS,
eventual stack exhaustion on a cyclic fallback chain).  `locale.code` is a
definite string at every reachable call, so the `!_.isUndefined(locale.code)`
conjunct of the source is identically true and omitted. -/
def getLocalizedField (fuel : Nat) (field : JValue) (code : String)
    (localesFallback : JObj) : Option JValue :=
  match fuel with
  | 0 => none
  | fuel + 1 =>
    if !(jvGet field code).isUndef then
      some (jvGet field code)
    else if !(jsGet localesFallback code).isUndef then
      getLocalizedField fuel field (jvStr (jsGet localesFallback code)) localesFallback
    else
      some .null

/-- Embedding of `buildFallbackChain`: one property per locale, mapping its
code to its `fallbackCode` (stored as `undefined` when absent, exactly as the
source assignment does). -/
def buildFallbackChain (locales : List Locale) : JObj :=
  locales.foldl
    (fun localesFallback locale =>
      jsSet localesFallback locale.code
        (match locale.fallbackCode with
         | some c => .str c
         | none => .undef))
    []

/-- Embedding of `makeId` (lines 38-45 of `normalize.js`). -/
def makeId (spaceId id currentLocale defaultLocale type : String) : String :=
  let normalizedType := if type.startsWith "Deleted" then type.drop 7 else type
  if currentLocale == defaultLocale then
    spaceId ++ "___" ++ id ++ "___" ++ normalizedType
  else
    spaceId ++ "___" ++ id ++ "___" ++ normalizedType ++ "___" ++ currentLocale

/-- Adds an element to an insertion-ordered set (JS `Set.prototype.add`). -/
def setAdd (s : List String) (x : String) : List String :=
  if s.contains x then s else s ++ [x]

/-- Embedding of `buildResolvableSet` (lines 71-94 of `normalize.js`). -/
def buildResolvableSet (entryList : List (List Entry)) (existingNodes : List ExistingNode)
    (assets : List Asset) : List String :=
  let r := existingNodes.foldl
    (fun s node => setAdd s (node.contentful_id ++ "___" ++ node.sysType)) []
  let r := entryList.foldl
    (fun s entries =>
      entries.foldl (fun s entry => setAdd s (entry.sys.id ++ "___" ++ entry.sys.type)) s) r
  assets.foldl (fun s assetItem => setAdd s (assetItem.sys.id ++ "___" ++ assetItem.sys.type)) r

/-- One reverse edge recorded in the foreign-reference map. -/
structure ForeignRef where
  name : String
  id : String
  spaceId : String
  type : String

/-- The foreign-reference map: a JS object keyed by entity key, each value an
ordered array of reverse edges. -/
abbrev FRMap := List (String × List ForeignRef)

/-- Map lookup `foreignReferenceMap[key]`. -/
def frmGet (m : FRMap) (k : String) : Option (List ForeignRef) :=
  (m.find? (fun p => p.1 == k)).map (fun p => p.2)

/-- `if (!m[key]) m[key] = []; m[key].push(r)`. -/
def frmPush (m : FRMap) (k : String) (r : ForeignRef) : FRMap :=
  match frmGet m k with
  | some _ => m.map (fun p => if p.1 == k then (p.1, p.2 ++ [r]) else p)
  | none => m ++ [(k, [r])]

/-- The reference-shape test `v && v.sys && v.sys.type && v.sys.id` (each
conjunct a JS truthiness test); also covers the optional-chain variant
`v?.sys?.type && v.sys.id` of the source, which evaluates identically. -/
def hasRefShape (v : JValue) : Bool :=
  v.truthy && (jvGet v "sys").truthy && (jvGet2 v "sys" "type").truthy
    && (jvGet2 v "sys" "id").truthy

/-- `v.sys.linkType || v.sys.type`, coerced to a string. -/
def refLinkTypeOrType (v : JValue) : String :=
  jvStr (if (jvGet2 v "sys" "linkType").truthy then jvGet2 v "sys" "linkType"
         else jvGet2 v "sys" "type")

/-- The entity key of a link value: `${v.sys.id}___${v.sys.linkType || v.sys.type}`. -/
def refKey (v : JValue) : String :=
  jvStr (jvGet2 v "sys" "id") ++ "___" ++ refLinkTypeOrType v

/-- Whether an array value looks like an array of references (the source's
check on `entryItemFieldValue[0]`). -/
def headHasRefShape (elems : List JValue) : Bool :=
  match elems.head? with
  | some v => hasRefShape v
  | none => false

/-- The reverse edge pushed by `buildForeignReferenceMap` (lines 141-146 and
164-169 of `normalize.js`). -/
def foreignRefOf (contentTypeItemId : String) (entryItem : Entry)
    (spaceId : String) : ForeignRef :=
  { name := contentTypeItemId ++ "___NODE"
    id := entryItem.sys.id
    spaceId := spaceId
    type := entryItem.sys.type }

/-- One iteration of `buildForeignReferenceMap`'s per-field loop (lines
118-172): a truthy field whose default-locale value is a reference (or an
array of references) records a reverse edge under each resolvable target's
entity key. -/
def bfrFieldStep (resolvable : List String) (defaultLocale spaceId : String)
    (contentTypeItemId : String) (entryItem : Entry) (m : FRMap)
    (entryItemFieldKey : String) : FRMap :=
  if !(jsGet entryItem.fields entryItemFieldKey).truthy then m
  else
    let entryItemFieldValue :=
      jvGet (jsGet entryItem.fields entryItemFieldKey) defaultLocale
    match entryItemFieldValue with
    | .arr elems =>
      if headHasRefShape elems then
        elems.foldl
          (fun m v =>
            let key := refKey v
            if !resolvable.contains key then m
            else frmPush m key (foreignRefOf contentTypeItemId entryItem spaceId))
          m
      else m
    | v =>
      if hasRefShape v then
        let key := refKey v
        if !resolvable.contains key then m
        else frmPush m key (foreignRefOf contentTypeItemId entryItem spaceId)
      else m

/-- One entry's contribution (lines 116-173): the per-field loop over the
keys of `entryItem.fields`. -/
def bfrEntryStep (resolvable : List String) (defaultLocale spaceId : String)
    (contentTypeItemId : String) (m : FRMap) (entryItem : Entry) : FRMap :=
  (entryItem.fields.map (fun p => p.1)).foldl
    (bfrFieldStep resolvable defaultLocale spaceId contentTypeItemId entryItem) m

/-- Embedding of `buildForeignReferenceMap` (lines 96-177 of `normalize.js`):
for every content type, every entry and every field, a default-locale value
that is a reference (or an array of references) records a reverse edge under
the target's entity key, labelled by the content type's lower-cased
identifier; unresolvable targets are skipped. -/
def buildForeignReferenceMap (contentTypeItems : List ContentType)
    (entryList : List (List Entry)) (resolvable : List String) (defaultLocale : String)
    (spaceId : String) (useNameForId : Bool) : FRMap :=
  (contentTypeItems.zip entryList).foldl
    (fun m ctEntries =>
      let contentTypeItemId :=
        if useNameForId then jsToLower ctEntries.1.name else jsToLower ctEntries.1.sys.id
      ctEntries.2.foldl
        (bfrEntryStep resolvable defaultLocale spaceId contentTypeItemId) m)
    []


/-! ## `normalize.js`: serialization and child-node preparation -/

mutual

/-- Embedding of `stringify` (json-stringify-safe) on our value model: plain
JSON serialization (the inductive model cannot contain reference cycles, so
the cycle-safety of the library is vacuous here).  String escaping is not
modelled; the payloads considered contain no characters needing escapes.
A top-level or array-element `undefined` serializes as `null`; object
properties holding `undefined` are dropped, as `JSON.stringify` does. -/
def jsonStringify : JValue → String
  | .undef => "null"
  | .null => "null"
  | .bool b => if b then "true" else "false"
  | .num q => toString q
  | .str s => "\"" ++ s ++ "\""
  | .arr xs => "[" ++ String.intercalate "," (jsonStringifyList xs) ++ "]"
  | .obj fs => "\x7b" ++ String.intercalate "," (jsonStringifyObj fs) ++ "\x7d"

/-- Serializes the elements of an array. -/
def jsonStringifyList : List JValue → List String
  | [] => []
  | v :: vs => jsonStringify v :: jsonStringifyList vs

/-- Serializes the properties of an object, dropping `undefined` values. -/
def jsonStringifyObj : List (String × JValue) → List String
  | [] => []
  | (k, v) :: fs =>
    match v with
    | .undef => jsonStringifyObj fs
    | _ => ("\"" ++ k ++ "\":" ++ jsonStringify v) :: jsonStringifyObj fs

end

/-- The test `v && v.sys && v.sys.type === "Link"` of the rich-text `traverse`. -/
def isLinkMarked (v : JValue) : Bool :=
  v.truthy && (jvGet v "sys").truthy
    && (match jvGet2 v "sys" "type" with
        | .str s => s == "Link"
        | _ => false)

mutual

/-- Embedding of the `traverse` closure of the RichText branch (lines 509-518
of `normalize.js`): recursively collects, in visit order, every nested value
carrying a `sys.type == "Link"` marker.  The top-level call iterates the
properties of the field value without testing the value itself, exactly like
`for (const k in obj)`. -/
def traverseLinks : JValue → List JValue
  | .obj fs => traverseLinksPairs fs
  | .arr xs => traverseLinksList xs
  | _ => []

/-- Visits the properties of an object. -/
def traverseLinksPairs : List (String × JValue) → List JValue
  | [] => []
  | (_, v) :: fs => traverseLinksVal v ++ traverseLinksPairs fs

/-- Visits the elements of an array (`for..in` iterates array indices too). -/
def traverseLinksList : List JValue → List JValue
  | [] => []
  | v :: vs => traverseLinksVal v ++ traverseLinksList vs

/-- Visits one value: collect it if it is link-marked, else recurse into it
when it is an object or array (`typeof v === "object"`). -/
def traverseLinksVal (v : JValue) : List JValue :=
  if isLinkMarked v then [v]
  else
    match v with
    | .obj fs => traverseLinksPairs fs
    | .arr xs => traverseLinksList xs
    | _ => []

end

/-- Embedding of `prepareTextNode(id, node, key, text)` (lines 179-195). -/
def prepareTextNode (id : String) (node : JValue) (_key : String) (text : JValue) : JValue :=
  let str := match text with
    | .str s => s
    | _ => ""
  .obj
    [ ("id", .str id),
      ("parent", jvGet node "id"),
      ("raw", .str str),
      ("internal", .obj
        [ ("type", .str "ContentfulNodeTypeText"),
          ("mediaType", .str "text/markdown"),
          ("content", .str str),
          ("contentDigest", jvGet node "updatedAt") ]) ]

/-- Embedding of `prepareLocationNode(id, node, key, data)` (lines 197-212). -/
def prepareLocationNode (id : String) (node : JValue) (_key : String) (data : JValue) : JValue :=
  .obj
    [ ("id", .str id),
      ("parent", jvGet node "id"),
      ("lat", jvGet data "lat"),
      ("lon", jvGet data "lon"),
      ("internal", .obj
        [ ("type", .str "ContentfulNodeTypeLocation"),
          ("contentDigest", jvGet node "updatedAt") ]) ]

/-- Embedding of `prepareJSONNode(id, node, key, content)` (lines 214-233):
returns the JSON child node and the parent node with the child's id appended
to its `children` (the source mutates `node.children` in place).  At every
call site `node` is an object whose `children` is an array, so the fallback
arms are unreachable. -/
def prepareJSONNode (id : String) (node : JValue) (_key : String) (content : JValue) :
    JValue × JValue :=
  let spreadPart : JObj :=
    match content with
    | .obj fs => fs
    | _ => [("content", content)]
  let str := jsonStringify content
  let core : List (String × JValue) :=
    [ ("id", .str id),
      ("parent", jvGet node "id"),
      ("children", .arr []),
      ("internal", .obj
        [ ("type", .str "ContentfulNodeTypeJSON"),
          ("mediaType", .str "application/json"),
          ("content", .str str),
          ("contentDigest", jvGet node "updatedAt") ]) ]
  let jsonNode := JValue.obj (core.foldl (fun o p => jsSet o p.1 p.2) spreadPart)
  let node' :=
    match node with
    | .obj fs =>
      JValue.obj (jsSet fs "children"
        (match jsGet fs "children" with
         | .arr xs => .arr (xs ++ [.str id])
         | v => v))
    | v => v
  (jsonNode, node')

/-! ## `normalize.js`: forward links and reverse references -/

/-- The filtered-and-mapped node-id list built for an array-valued link field
(lines 336-345 of `normalize.js`): the links whose entity key is resolvable,
each replaced by its Gatsby node id. -/
def resolvableEntryItemFieldValue (resolvable : List String) (spaceId : String)
    (mId : String → String → String → String) (elems : List JValue) : List JValue :=
  (elems.filter (fun v => resolvable.contains (refKey v))).map
    (fun v => JValue.str (mId spaceId (jvStr (jvGet2 v "sys" "id")) (refLinkTypeOrType v)))

/-- One iteration of the forward-link loop (lines 327-385): processes the
field named `entryItemFieldKey` of the (mutated) field object, replacing a
recognized reference value by a `<field>___NODE` value restricted to the
resolvable set and deleting the original field. -/
def linkFieldStep (resolvable : List String) (spaceId : String)
    (mId : String → String → String → String) (fields : JObj)
    (entryItemFieldKey : String) : JObj :=
  if !(jsGet fields entryItemFieldKey).truthy then fields
  else
    match jsGet fields entryItemFieldKey with
    | .arr elems =>
      if headHasRefShape elems then
        let resolvableValue := resolvableEntryItemFieldValue resolvable spaceId mId elems
        let fields1 :=
          if resolvableValue.length != 0 then
            jsSet fields (entryItemFieldKey ++ "___NODE") (.arr resolvableValue)
          else fields
        jsDelete fields1 entryItemFieldKey
      else fields
    | v =>
      if hasRefShape v then
        let fields1 :=
          if resolvable.contains (refKey v) then
            jsSet fields (entryItemFieldKey ++ "___NODE")
              (.str (mId spaceId (jvStr (jvGet2 v "sys" "id")) (refLinkTypeOrType v)))
          else fields
        jsDelete fields1 entryItemFieldKey
      else fields

/-- The forward-link resolution loop: iterates over the snapshot of
`Object.keys(entryItemFields)` taken before any mutation. -/
def resolveEntryLinks (resolvable : List String) (spaceId : String)
    (mId : String → String → String → String) (fields : JObj) : JObj :=
  (fields.map (fun p => p.1)).foldl (linkFieldStep resolvable spaceId mId) fields

/-- Embedding of the reverse-linkage loop (lines 387-418): for each recorded
reverse edge, append the referencing node's id when the field already holds
an array, leave a truthy non-array value untouched, and create a one-element
array when the field is absent or falsy. -/
def applyForeignReferences (fields : JObj) (foreignReferences : List ForeignRef)
    (mId : String → String → String → String) : JObj :=
  foreignReferences.foldl
    (fun fields foreignReference =>
      let existingReference := jsGet fields foreignReference.name
      if existingReference.truthy then
        match existingReference with
        | .arr xs =>
          jsSet fields foreignReference.name
            (.arr (xs ++ [.str (mId foreignReference.spaceId foreignReference.id
              foreignReference.type)]))
        | _ => fields
      else
        jsSet fields foreignReference.name
          (.arr [.str (mId foreignReference.spaceId foreignReference.id
            foreignReference.type)]))
    fields

/-! ## `normalize.js`: `createNodesForContentType` -/

/-- The parameters of `createNodesForContentType` that stay fixed over the
per-locale/per-entry loops.  `getNodeDigest id` models the optional chain
`getNode(id)?.internal?.contentDigest`; `localeFuel` bounds the unbounded
`getLocalizedField` recursion (see `getLocalizedField`). -/
structure NormalizeEnv where
  contentTypeItem : ContentType
  restrictedNodeFields : List String
  conflictPre : String
  resolvable : List String
  foreignReferenceMap : FRMap
  defaultLocale : String
  locales : List Locale
  spaceId : String
  useNameForId : Bool
  enableTags : Bool
  createNodeId : String → String
  createContentDigest : String → String
  getNodeDigest : String → Option String
  localeFuel : Nat

/-- The content-type label: `name` when `useNameForId`, else the sys id. -/
def NormalizeEnv.contentTypeItemId (env : NormalizeEnv) : String :=
  if env.useNameForId then env.contentTypeItem.name else env.contentTypeItem.sys.id

/-- The per-locale node-id maker `mId = makeMakeId({currentLocale, ...})`. -/
def NormalizeEnv.mId (env : NormalizeEnv) (currentLocale : String)
    (spaceId id type : String) : String :=
  env.createNodeId (makeId spaceId id currentLocale env.defaultLocale type)

/-- Plain-object test (`_.isPlainObject`). -/
def isPlainObj : JValue → Bool
  | .obj _ => true
  | _ => false

/-- Array test (`_.isArray` / `Array.isArray`). -/
def isArrVal : JValue → Bool
  | .arr _ => true
  | _ => false

/-- State threaded through the field-materialization loop: the mutable field
object, the entry node under construction (its `children` grows), and the
`childrenNodes` accumulator. -/
structure MatState where
  fields : JObj
  entryNode : JValue
  children : List JValue

/-- One iteration of the field-materialization loop (lines 462-640): splits a
Text/RichText/JSON/Location field of `entryItemFieldKey` into a child node,
rewires the field to `<field>___NODE`, and honours the per-child digest skip.
`none` models the JS `TypeError` thrown when the schema lookup fails (reading
`.type` of `undefined`) or when a Location value cannot be destructured. -/
def materializeFieldStep (env : NormalizeEnv) (currentLocale : String)
    (entryNodeId updatedAt : String) (st : MatState) (entryItemFieldKey : String) :
    Option MatState :=
  -- Ignore fields with "___" as they're already handled
  if jsIncludes entryItemFieldKey "___" then some st
  else
    match env.contentTypeItem.fields.find?
        (fun f =>
          (if env.restrictedNodeFields.contains f.id then env.conflictPre ++ f.id else f.id)
            == entryItemFieldKey) with
    | none => none
    | some fieldProps =>
      let fieldType := fieldProps.type
      if fieldType == "Text" then
        let textNodeId := env.createNodeId (entryNodeId ++ entryItemFieldKey ++ "TextNode")
        let children1 :=
          if env.getNodeDigest textNodeId != some updatedAt then
            st.children
              ++ [prepareTextNode textNodeId st.entryNode entryItemFieldKey
                    (jsGet st.fields entryItemFieldKey)]
          else st.children
        some
          { fields := jsDelete
              (jsSet st.fields (entryItemFieldKey ++ "___NODE") (.str textNodeId))
              entryItemFieldKey
            entryNode := st.entryNode
            children := children1 }
      else if fieldType == "RichText" && isPlainObj (jsGet st.fields entryItemFieldKey) then
        let fieldValue := jsGet st.fields entryItemFieldKey
        let rawReferences := traverseLinks fieldValue
        let resolvableReferenceIds :=
          (rawReferences.filter (fun v => env.resolvable.contains (refKey v))).foldl
            (fun s v =>
              setAdd s (env.mId currentLocale env.spaceId (jvStr (jvGet2 v "sys" "id"))
                (refLinkTypeOrType v)))
            []
        let richTextNodeId :=
          env.createNodeId (entryNodeId ++ "." ++ entryItemFieldKey ++ ".richText")
        let raw := jsonStringify fieldValue
        let richTextNode := JValue.obj
          [ ("id", .str richTextNodeId),
            ("raw", .str raw),
            ("references___NODE", .arr (resolvableReferenceIds.map JValue.str)),
            ("internal", .obj
              [ ("type", .str "ContentfulNodeTypeRichText"),
                ("contentDigest", .str (env.createContentDigest raw)) ]) ]
        some
          { fields := jsSet (jsDelete st.fields entryItemFieldKey)
              (entryItemFieldKey ++ "___NODE") (.str richTextNodeId)
            entryNode := st.entryNode
            children := st.children ++ [richTextNode] }
      else if fieldType == "Object" && isPlainObj (jsGet st.fields entryItemFieldKey) then
        let jsonNodeId := env.createNodeId (entryNodeId ++ entryItemFieldKey ++ "JSONNode")
        let st1 :=
          if env.getNodeDigest jsonNodeId != some updatedAt then
            let r := prepareJSONNode jsonNodeId st.entryNode entryItemFieldKey
              (jsGet st.fields entryItemFieldKey)
            { st with entryNode := r.2, children := st.children ++ [r.1] }
          else st
        let fields1 := jsDelete
          (jsSet st1.fields (entryItemFieldKey ++ "___NODE") (.str jsonNodeId))
          entryItemFieldKey
        some { st1 with fields := fields1 }
      else if fieldType == "Object" && isArrVal (jsGet st.fields entryItemFieldKey) then
        let elems :=
          match jsGet st.fields entryItemFieldKey with
          | .arr xs => xs
          | _ => []
        let start : JValue × List JValue × List JValue := (st.entryNode, st.children, [])
        let r := elems.enum.foldl
          (fun (acc : JValue × List JValue × List JValue) iv =>
            let jsonNodeId :=
              env.createNodeId (entryNodeId ++ entryItemFieldKey ++ toString iv.1 ++ "JSONNode")
            let acc1 :=
              if env.getNodeDigest jsonNodeId != some updatedAt then
                let pr := prepareJSONNode jsonNodeId acc.1 entryItemFieldKey iv.2
                (pr.2, acc.2.1 ++ [pr.1], acc.2.2)
              else acc
            (acc1.1, acc1.2.1, acc1.2.2 ++ [JValue.str jsonNodeId]))
          start
        some
          { fields := jsDelete
              (jsSet st.fields (entryItemFieldKey ++ "___NODE") (.arr r.2.2))
              entryItemFieldKey
            entryNode := r.1
            children := r.2.1 }
      else if fieldType == "Location" then
        match jsGet st.fields entryItemFieldKey with
        | .undef => none
        | .null => none
        | data =>
          let locationNodeId := env.createNodeId (entryNodeId ++ entryItemFieldKey ++ "Location")
          let children1 :=
            if env.getNodeDigest locationNodeId != some updatedAt then
              st.children
                ++ [prepareLocationNode locationNodeId st.entryNode entryItemFieldKey data]
            else st.children
          some
            { fields := jsDelete
                (jsSet st.fields (entryItemFieldKey ++ "___NODE") (.str locationNodeId))
                entryItemFieldKey
              entryNode := st.entryNode
              children := children1 }
      else some st

/-- The final node assembly (lines 642-649 of `normalize.js`, identically
lines 1200-1204 of the second variant):
`entryNode = { ...entryItemFields, ...entryNode, node_locale: locale.code }`
followed by `entryNode.internal.contentDigest = entryItem.sys.updatedAt`. -/
def assembleEntryNode (entryItemFields : JObj) (entryNode : JValue) (localeCode : String)
    (updatedAt : String) : JValue :=
  let coreFields :=
    match entryNode with
    | .obj fs => fs
    | _ => []
  let merged := jsSet (jsSpread2 entryItemFields coreFields) "node_locale" (.str localeCode)
  let internal1 :=
    match jsGet merged "internal" with
    | .obj ifs => JValue.obj (jsSet ifs "contentDigest" (.str updatedAt))
    | v => v
  .obj (jsSet merged "internal" internal1)

/-- Outcome of the per-entry map callback of `createNodesForContentType`. -/
inductive PResult where
  | crash
  | stuck
  | skipped
  | node (entryNode : JValue) (children : List JValue)

/-- Localizes one entry's fields (`_.mapValues` at lines 306-316): a field
marked localized goes through `getLocalizedField`, an unmarked one takes the
value keyed by the default locale.  `Except` distinguishes the JS `TypeError`
on a failed schema lookup (`.error true`) from an exhausted locale-resolution
fuel (`.error false`). -/
def localizeEntryFields (env : NormalizeEnv) (localeCode : String) (localesFallback : JObj)
    (entryFields : JObj) : Except Bool JObj :=
  entryFields.foldr
    (fun p acc =>
      match acc with
      | .error e => .error e
      | .ok rest =>
        match env.contentTypeItem.fields.find? (fun field => field.id == p.1) with
        | none => .error true
        | some fieldProps =>
          if fieldProps.localized then
            match getLocalizedField env.localeFuel p.2 localeCode localesFallback with
            | none => .error false
            | some v => .ok ((p.1, v) :: rest)
          else
            .ok ((p.1, jvGet p.2 env.defaultLocale) :: rest))
    (.ok [])

/-- Embedding of the per-entry map callback (lines 290-661): digest skip,
localization, conflict-field prefixing, forward links, reverse references,
sys child node, field materialization, node assembly, and tag linkage. -/
def processEntry (env : NormalizeEnv) (locale : Locale) (localesFallback : JObj)
    (conflictFields : List String) (entryItem : Entry) : PResult :=
  let entryNodeId := env.mId locale.code env.spaceId entryItem.sys.id entryItem.sys.type
  if env.getNodeDigest entryNodeId == some entryItem.sys.updatedAt then .skipped
  else
    match localizeEntryFields env locale.code localesFallback entryItem.fields with
    | .error true => .crash
    | .error false => .stuck
    | .ok localized =>
      -- Prefix any conflicting fields
      let fields1 := conflictFields.foldl
        (fun fs conflictField =>
          jsDelete (jsSet fs (env.conflictPre ++ conflictField) (jsGet fs conflictField))
            conflictField)
        localized
      -- Add linkages to other nodes based on foreign references
      let fields2 := resolveEntryLinks env.resolvable env.spaceId (env.mId locale.code) fields1
      -- Add reverse linkages if there are any for this node
      let fields3 :=
        match frmGet env.foreignReferenceMap (entryItem.sys.id ++ "___" ++ entryItem.sys.type) with
        | some foreignReferences =>
          applyForeignReferences fields2 foreignReferences (env.mId locale.code)
        | none => fields2
      -- Create sys node
      let sysId := env.createNodeId (entryNodeId ++ ".sys")
      let sysNode0 : JObj :=
        [ ("id", .str sysId),
          ("type", .str entryItem.sys.type),
          ("internal", .obj
            [ ("type", .str "ContentfulSys"),
              ("contentDigest", .str entryItem.sys.updatedAt) ]) ]
      let sysNode1 :=
        match entryItem.sys.revision with
        | some r => if r != 0 then jsSet sysNode0 "revision" (.num r) else sysNode0
        | none => sysNode0
      let sysNode2 :=
        match entryItem.sys.contentType with
        | some _ => jsSet sysNode1 "contentType___NODE"
            (.str (env.createNodeId env.contentTypeItemId))
        | none => sysNode1
      -- Create actual entry node
      let entryNode0 : JValue := .obj
        [ ("id", .str entryNodeId),
          ("spaceId", .str env.spaceId),
          ("contentful_id", .str entryItem.sys.id),
          ("createdAt", .str entryItem.sys.createdAt),
          ("updatedAt", .str entryItem.sys.updatedAt),
          ("parent", .str env.contentTypeItemId),
          ("children", .arr []),
          ("internal", .obj [("type", .str (makeTypeName env.contentTypeItemId))]),
          ("sys___NODE", .str sysId) ]
      -- Replace Text/RichText/Object/Location fields with child nodes
      let keys := fields3.map (fun p => p.1)
      match keys.foldl
          (fun acc key =>
            match acc with
            | none => none
            | some st => materializeFieldStep env locale.code entryNodeId
                entryItem.sys.updatedAt st key)
          (some { fields := fields3, entryNode := entryNode0,
                  children := [JValue.obj sysNode2] }) with
      | none => .crash
      | some stFinal =>
        let assembled := assembleEntryNode stFinal.fields stFinal.entryNode locale.code
          entryItem.sys.updatedAt
        -- Link tags
        let assembled1 :=
          if env.enableTags then
            match assembled with
            | .obj fs =>
              JValue.obj (jsSet fs "metadata" (.obj
                [ ("tags___NODE", .arr (entryItem.metadataTags.map
                    (fun tag => JValue.str (env.createNodeId
                      ("ContentfulTag__" ++ env.spaceId ++ "__" ++ tag))))) ]))
            | v => v
          else assembled
        .node assembled1 stFinal.children

/-- The content-type node (lines 664-676), re-created on every per-locale
pass, with `contentDigest` set to the content-type schema's own `updatedAt`. -/
def contentTypeNode (env : NormalizeEnv) : JValue :=
  JValue.obj
    [ ("id", .str (env.createNodeId env.contentTypeItemId)),
      ("name", .str env.contentTypeItem.name),
      ("displayField", .str env.contentTypeItem.displayField),
      ("description", .str env.contentTypeItem.description),
      ("internal", .obj
        [ ("type", .str (makeTypeName "ContentType")),
          ("contentDigest", .str env.contentTypeItem.sys.updatedAt) ]) ]

/-- The per-locale body of `createNodesForContentType` (lines 263-685): warns
and collects conflict fields, processes each entry, and emits the
content-type node followed by the surviving entry nodes and child nodes.
`none` propagates a thrown `TypeError` or exhausted locale-resolution fuel. -/
def processLocale (env : NormalizeEnv) (entries : List Entry) (locale : Locale) :
    Option (List JValue) :=
  let localesFallback := buildFallbackChain env.locales
  let conflictFields :=
    (env.contentTypeItem.fields.filter
      (fun f => env.restrictedNodeFields.contains f.id)).map (fun f => f.id)
  let results := entries.map (processEntry env locale localesFallback conflictFields)
  if results.any (fun r =>
      match r with
      | .crash => true
      | .stuck => true
      | _ => false) then none
  else
    let entryNodes := results.filterMap
      (fun r =>
        match r with
        | .node n _ => some n
        | _ => none)
    let childrenNodes := (results.map
      (fun r =>
        match r with
        | .node _ cs => cs
        | _ => [])).flatten
    some ([contentTypeNode env] ++ entryNodes ++ childrenNodes)

/-- Embedding of `createNodesForContentType` (lines 235-688 of
`normalize.js`): the full list of nodes passed to `createNode`, in emission
order, across all locales; `none` propagates a crash. -/
def createNodesForContentType (env : NormalizeEnv) (entries : List Entry) :
    Option (List JValue) :=
  env.locales.foldr
    (fun locale acc =>
      match processLocale env entries locale, acc with
      | some ns, some rest => some (ns ++ rest)
      | _, _ => none)
    (some [])

/-! ## `normalize.js`: `createAssetNodes` (both variants) -/

/-- The per-locale asset node of the first `createAssetNodes` variant (lines
690-745): core attributes, locale-resolved `file`/`title`/`description` with
their defaults, `sys.type` (plus truthy `revision`), and the content digest
assigned afterwards.  `none` means the locale-fallback recursion ran out of
fuel. -/
def createAssetNodeForLocale (createNodeId : String → String)
    (defaultLocale spaceId : String) (localeFuel : Nat) (locales : List Locale)
    (assetItem : Asset) (locale : Locale) : Option JValue :=
  let localesFallback := buildFallbackChain locales
  let mId := fun (sp id ty : String) => createNodeId (makeId sp id locale.code defaultLocale ty)
  let getField := fun (field : JValue) =>
    getLocalizedField localeFuel field locale.code localesFallback
  let fileV : Option JValue :=
    if (jsGet assetItem.fields "file").truthy then getField (jsGet assetItem.fields "file")
    else some .null
  let titleV : Option JValue :=
    if (jsGet assetItem.fields "title").truthy then getField (jsGet assetItem.fields "title")
    else some (.str "")
  let descV : Option JValue :=
    if (jsGet assetItem.fields "description").truthy then
      getField (jsGet assetItem.fields "description")
    else some (.str "")
  match fileV, titleV, descV with
  | some fileVal, some titleVal, some descVal =>
    let node0 : JObj :=
      [ ("contentful_id", .str assetItem.sys.id),
        ("spaceId", .str spaceId),
        ("id", .str (mId spaceId assetItem.sys.id assetItem.sys.type)),
        ("createdAt", .str assetItem.sys.createdAt),
        ("updatedAt", .str assetItem.sys.updatedAt),
        ("parent", .null),
        ("children", .arr []),
        ("file", fileVal),
        ("title", titleVal),
        ("description", descVal),
        ("node_locale", .str locale.code),
        ("internal", .obj [("type", .str (makeTypeName "Asset"))]),
        ("sys", .obj [("type", .str assetItem.sys.type)]) ]
    -- if (assetItem.sys.revision) assetNode.sys.revision = assetItem.sys.revision
    let node1 :=
      match assetItem.sys.revision with
      | some r =>
        if r != 0 then
          match jsGet node0 "sys" with
          | .obj sfs => jsSet node0 "sys" (.obj (jsSet sfs "revision" (.num r)))
          | _ => node0
        else node0
      | none => node0
    -- assetNode.internal.contentDigest = assetItem.sys.updatedAt
    let node2 :=
      match jsGet node1 "internal" with
      | .obj ifs =>
        jsSet node1 "internal"
          (.obj (jsSet ifs "contentDigest" (.str assetItem.sys.updatedAt)))
      | _ => node1
    some (.obj node2)
  | _, _, _ => none

/-- Embedding of the first `createAssetNodes` variant (lines 690-745): the
ordered list of nodes passed to `createNode`, one per locale. -/
def createAssetNodes (createNodeId : String → String) (defaultLocale spaceId : String)
    (localeFuel : Nat) (locales : List Locale) (assetItem : Asset) : Option (List JValue) :=
  locales.foldr
    (fun locale acc =>
      match createAssetNodeForLocale createNodeId defaultLocale spaceId localeFuel locales
          assetItem locale, acc with
      | some n, some rest => some (n :: rest)
      | _, _ => none)
    (some [])

/-- The per-locale asset node of the second `createAssetNodes` variant (lines
1245-1300): identical except that `contentDigest` is part of the `internal`
literal from the start. -/
def createAssetNodeForLocaleV2 (createNodeId : String → String)
    (defaultLocale spaceId : String) (localeFuel : Nat) (locales : List Locale)
    (assetItem : Asset) (locale : Locale) : Option JValue :=
  let localesFallback := buildFallbackChain locales
  let mId := fun (sp id ty : String) => createNodeId (makeId sp id locale.code defaultLocale ty)
  let getField := fun (field : JValue) =>
    getLocalizedField localeFuel field locale.code localesFallback
  let fileV : Option JValue :=
    if (jsGet assetItem.fields "file").truthy then getField (jsGet assetItem.fields "file")
    else some .null
  let titleV : Option JValue :=
    if (jsGet assetItem.fields "title").truthy then getField (jsGet assetItem.fields "title")
    else some (.str "")
  let descV : Option JValue :=
    if (jsGet assetItem.fields "description").truthy then
      getField (jsGet assetItem.fields "description")
    else some (.str "")
  match fileV, titleV, descV with
  | some fileVal, some titleVal, some descVal =>
    let node0 : JObj :=
      [ ("contentful_id", .str assetItem.sys.id),
        ("spaceId", .str spaceId),
        ("id", .str (mId spaceId assetItem.sys.id assetItem.sys.type)),
        ("createdAt", .str assetItem.sys.createdAt),
        ("updatedAt", .str assetItem.sys.updatedAt),
        ("parent", .null),
        ("children", .arr []),
        ("file", fileVal),
        ("title", titleVal),
        ("description", descVal),
        ("node_locale", .str locale.code),
        ("internal", .obj
          [ ("type", .str (makeTypeName "Asset")),
            ("contentDigest", .str assetItem.sys.updatedAt) ]),
        ("sys", .obj [("type", .str assetItem.sys.type)]) ]
    let node1 :=
      match assetItem.sys.revision with
      | some r =>
        if r != 0 then
          match jsGet node0 "sys" with
          | .obj sfs => jsSet node0 "sys" (.obj (jsSet sfs "revision" (.num r)))
          | _ => node0
        else node0
      | none => node0
    some (.obj node1)
  | _, _, _ => none

/-- Embedding of the second `createAssetNodes` variant (lines 1245-1300).
Its final statement per locale is
`assetNode.internal.createNodePromises.push(createNode(assetNode))`:
`assetNode.internal` has no `createNodePromises` property, so the member call
throws a `TypeError` (modelled as `none`); in the hypothetical array case the
push would land inside the node, not in the returned accumulator, which the
function leaves empty. -/
def createAssetNodesV2 (createNodeId : String → String) (defaultLocale spaceId : String)
    (localeFuel : Nat) (locales : List Locale) (assetItem : Asset) : Option (List JValue) :=
  locales.foldr
    (fun locale acc =>
      match acc, createAssetNodeForLocaleV2 createNodeId defaultLocale spaceId localeFuel
          locales assetItem locale with
      | some rest, some assetNode =>
        match jvGet2 assetNode "internal" "createNodePromises" with
        | .arr _ => some rest
        | _ => none
      | _, _ => none)
    (some [])

/-! ## Helper lemmas and claim theorems for the image-derivative engine -/

/-- The final `resizingBehavior` of `resolveFixed` when no fit was supplied:
it is `"fill"` exactly when the caller supplied a height, because a missing
width is derived from the height before the both-dimensions check. -/
theorem resolveFixed_resizingBehavior (img : Image) (o : FixedOptions) (r : FixedResult)
    (h : resolveFixed img o = some r) (hf : optStrFalsy o.resizingBehavior = true) :
    (r.resizingBehavior = some "fill" ↔ o.height.isSome) := by
  obtain ⟨file?⟩ := img
  cases file? with
  | none => simp [resolveFixed, isImage] at h
  | some f =>
    unfold resolveFixed at h
    cases hI : isImage ⟨some f⟩ with
    | false => rw [hI] at h; simp at h
    | true =>
      rw [hI] at h
      simp only [Bool.not_true, Bool.false_eq_true, if_false] at h
      obtain ⟨ow, oh, orb⟩ := o
      obtain ⟨rfl⟩ : r = _ := by
        cases h
        rfl
      cases ow <;> cases oh <;>
        simp_all [optStrFalsy] <;>
        (rcases orb with _ | s <;> simp_all)

/-- The final `resizingBehavior` of `resolveResize` when no fit was supplied:
it is `"fill"` exactly when the caller supplied both a width and a height. -/
theorem resolveResize_resizingBehavior (img : Image) (o : FixedOptions) (r : ResizeResult)
    (h : resolveResize img o = some r) (hf : optStrFalsy o.resizingBehavior = true) :
    (r.resizingBehavior = some "fill" ↔ (o.width.isSome ∧ o.height.isSome)) := by
  obtain ⟨file?⟩ := img
  cases file? with
  | none => simp [resolveResize, isImage] at h
  | some f =>
    unfold resolveResize at h
    cases hI : isImage ⟨some f⟩ with
    | false => rw [hI] at h; simp at h
    | true =>
      rw [hI] at h
      simp only [Bool.not_true, Bool.false_eq_true, if_false] at h
      obtain ⟨ow, oh, orb⟩ := o
      obtain ⟨rfl⟩ : r = _ := by
        cases h
        rfl
      cases ow <;> cases oh <;>
        simp_all [optStrFalsy] <;>
        (rcases orb with _ | s <;> simp_all)

/-- `resolveFluid` never writes `resizingBehavior`: the result carries the
caller's value unchanged. -/
theorem resolveFluid_resizingBehavior (img : Image) (o : FluidOptions) (r : FluidResult)
    (h : resolveFluid img o = some r) :
    r.resizingBehavior = o.resizingBehavior := by
  obtain ⟨file?⟩ := img
  cases file? with
  | none => simp [resolveFluid, isImage] at h
  | some f =>
    unfold resolveFluid at h
    cases hI : isImage ⟨some f⟩ with
    | false => rw [hI] at h; simp at h
    | true =>
      rw [hI] at h
      simp only [Bool.not_true, Bool.false_eq_true, if_false] at h
      obtain ⟨ow, oh, orb, osz⟩ := o
      obtain ⟨rfl⟩ : r = _ := by
        cases h
        rfl
      cases ow <;> cases oh <;> simp_all

/-- A `.jpg` sample asset, 800 by 600, used as concrete input below. -/
def sampleFile : ImageFile :=
  { url := "//images.ctfassets.net/a/b.jpg", contentType := "image/jpeg",
    width := 800, height := 600 }

/-- The sample asset wrapped as an image node. -/
def sampleImage : Image := { file := some sampleFile }

/-- C1 counterexample: a request that explicitly supplies only a height (no
width, no resizingBehavior) nevertheless gets `resizingBehavior` forced to
`"fill"` by `resolveFixed`, contradicting the claim that only a request with
both width and height does. -/
theorem C1_counterexample :
    (resolveFixed sampleImage { width := none, height := some 300, resizingBehavior := none }).map
      (fun r => r.resizingBehavior) = some (some "fill") := by
  norm_num [sampleImage, sampleFile, resolveFixed, getBasicImageProps, optNumTruthy,
    optStrFalsy, isImage, mimeTypeExtensionKeys, jsRound]

/-- C1 (amended): with no caller-supplied `resizingBehavior`, `resolveResize`
defaults it to the "fill" crop strategy exactly when both a width and a
height were explicitly requested; `resolveFixed` defaults it to "fill"
exactly when a height was requested (alone or together with a width), since
a missing width is first derived from the height; `resolveFluid` never sets
`resizingBehavior`.  A request supplying only a width, or neither dimension,
never has `resizingBehavior` forced to "fill" in any of the three modes. -/
theorem C1_resizingBehavior_fill_default (img : Image) (oF oR : FixedOptions)
    (oFl : FluidOptions) (rF : FixedResult) (rR : ResizeResult) (rFl : FluidResult)
    (hF : resolveFixed img oF = some rF) (hFf : optStrFalsy oF.resizingBehavior = true)
    (hR : resolveResize img oR = some rR) (hRf : optStrFalsy oR.resizingBehavior = true)
    (hFl : resolveFluid img oFl = some rFl) :
    (rF.resizingBehavior = some "fill" ↔ oF.height.isSome) ∧
    (rR.resizingBehavior = some "fill" ↔ (oR.width.isSome ∧ oR.height.isSome)) ∧
    rFl.resizingBehavior = oFl.resizingBehavior :=
  ⟨resolveFixed_resizingBehavior img oF rF hF hFf,
   resolveResize_resizingBehavior img oR rR hR hRf,
   resolveFluid_resizingBehavior img oFl rFl hFl⟩

/-- The concrete `resolveFixed` result for `sampleImage` at height 300. -/
def c1FixedRes : FixedResult :=
  { aspectRatio := 4 / 3, width := 400, height := 300, resizingBehavior := some "fill",
    srcSet := [(400, 300), (600, 450), (800, 600)] }

/-- The concrete `resolveResize` result for `sampleImage` at 50 by 100. -/
def c1ResizeRes : ResizeResult :=
  { width := 50, height := 100, aspectRatio := 1 / 2, resizingBehavior := some "fill" }

/-- The concrete `resolveFluid` result for `sampleImage` at maxWidth 100. -/
def c1FluidRes : FluidResult :=
  { aspectRatio := 4 / 3, resizingBehavior := none,
    srcSet := [(25, 19), (50, 38), (100, 75), (150, 113), (200, 150), (300, 225), (800, 600)],
    sizes := "100vw" }

/-- Concrete evaluation of `resolveFixed` on the sample asset. -/
theorem sampleFixedEval :
    resolveFixed sampleImage { width := none, height := some 300, resizingBehavior := none }
      = some c1FixedRes := by
  norm_num [sampleImage, sampleFile, c1FixedRes, resolveFixed, getBasicImageProps, optNumTruthy,
    optStrFalsy, isImage, mimeTypeExtensionKeys, jsRound, CONTENTFUL_IMAGE_MAX_SIZE,
    List.insertionSort, List.orderedInsert]

/-- Concrete evaluation of `resolveResize` on the sample asset. -/
theorem sampleResizeEval :
    resolveResize sampleImage { width := some 50, height := some 100, resizingBehavior := none }
      = some c1ResizeRes := by
  norm_num [sampleImage, sampleFile, c1ResizeRes, resolveResize, getBasicImageProps, optNumTruthy,
    optStrFalsy, isImage, mimeTypeExtensionKeys, jsRound]

/-- Concrete evaluation of `resolveFluid` on the sample asset. -/
theorem sampleFluidEval :
    resolveFluid sampleImage
      { maxWidth := some 100, maxHeight := none, resizingBehavior := none, sizes := some "100vw" }
      = some c1FluidRes := by
  norm_num [sampleImage, sampleFile, c1FluidRes, resolveFluid, getBasicImageProps, optNumTruthy,
    optStrFalsy, isImage, mimeTypeExtensionKeys, jsRound, CONTENTFUL_IMAGE_MAX_SIZE,
    List.insertionSort, List.orderedInsert]
  intro hx
  exact absurd hx (by decide)

/-- Witness for C1's amended theorem at the sample asset. -/
theorem C1_resizingBehavior_fill_default_witness :
    resolveFixed sampleImage { width := none, height := some 300, resizingBehavior := none }
        = some c1FixedRes ∧
    optStrFalsy (none : Option String) = true ∧
    resolveResize sampleImage { width := some 50, height := some 100, resizingBehavior := none }
        = some c1ResizeRes ∧
    resolveFluid sampleImage
        { maxWidth := some 100, maxHeight := none, resizingBehavior := none, sizes := some "100vw" }
        = some c1FluidRes ∧
    ((c1FixedRes.resizingBehavior = some "fill" ↔ (some (300 : ℚ)).isSome) ∧
      (c1ResizeRes.resizingBehavior = some "fill"
        ↔ ((some (50 : ℚ)).isSome ∧ (some (100 : ℚ)).isSome)) ∧
      c1FluidRes.resizingBehavior = (none : Option String)) :=
  ⟨sampleFixedEval, rfl, sampleResizeEval, sampleFluidEval,
    C1_resizingBehavior_fill_default sampleImage _ _ _ _ _ _
      sampleFixedEval rfl sampleResizeEval rfl sampleFluidEval⟩

/-- Candidate lists of the shape built by the fixed/fluid resolvers: sorting
preserves the bound carried by every member, and insertion sort yields a
list sorted ascending. -/
theorem srcSet_sorted_bounded (dAR srcW : ℚ) (base : List ℚ)
    (hbase : ∀ size ∈ base, size ≤ srcW ∧ size ≤ 4000) :
    (((base.insertionSort (· ≤ ·)).map
        (fun size => (size, jsRound (size / dAR)))).map Prod.fst).Sorted (· ≤ ·) ∧
      ∀ p ∈ (base.insertionSort (· ≤ ·)).map (fun size => (size, jsRound (size / dAR))),
        p.1 ≤ srcW ∧ p.1 ≤ 4000 := by
  constructor
  · rw [List.map_map]
    have hcomp : (Prod.fst ∘ fun size : ℚ => (size, jsRound (size / dAR))) = id := rfl
    rw [hcomp, List.map_id]
    exact List.sorted_insertionSort _ _
  · intro p hp
    obtain ⟨size, hmem, rfl⟩ := List.mem_map.mp hp
    exact hbase size ((List.perm_insertionSort _ _).mem_iff.mp hmem)

/-- Membership bound for the fluid base list, which conditionally appends the
source width. -/
theorem condAppendBound (srcW : ℚ) (A : List ℚ) (c : Prop) [Decidable c] (w : ℚ)
    (hA : ∀ size ∈ A, size ≤ srcW ∧ size ≤ 4000)
    (hw : c → w ≤ srcW ∧ w ≤ 4000) :
    ∀ size ∈ (if c then A ++ [w] else A), size ≤ srcW ∧ size ≤ 4000 := by
  intro size hmem
  by_cases hc : c
  · rw [if_pos hc] at hmem
    rcases List.mem_append.mp hmem with hmem1 | hmem1
    · exact hA size hmem1
    · have hsize : size = w := by simpa using hmem1
      subst hsize
      exact hw hc
  · rw [if_neg hc] at hmem
    exact hA size hmem

/-- Every `resolveFixed` srcSet candidate width respects the source width and
the 4000 cap, and the candidates are emitted sorted ascending. -/
theorem resolveFixed_srcSet (f : ImageFile) (o : FixedOptions) (r : FixedResult)
    (h : resolveFixed ⟨some f⟩ o = some r) :
    (r.srcSet.map Prod.fst).Sorted (· ≤ ·) ∧
      ∀ p ∈ r.srcSet, p.1 ≤ f.width ∧ p.1 ≤ 4000 := by
  unfold resolveFixed at h
  cases hI : isImage ⟨some f⟩ with
  | false => rw [hI] at h; simp at h
  | true =>
    rw [hI] at h
    simp only [Bool.not_true, Bool.false_eq_true, if_false] at h
    obtain ⟨rfl⟩ : r = _ := by
      cases h
      rfl
    refine srcSet_sorted_bounded _ f.width _ ?_
    intro size hmem
    rw [List.mem_filter] at hmem
    have hcond := of_decide_eq_true hmem.2
    exact ⟨hcond.2.2, hcond.1⟩

/-- Every `resolveFluid` srcSet candidate width respects the source width and
the 4000 cap, and the candidates are emitted sorted ascending. -/
theorem resolveFluid_srcSet (f : ImageFile) (o : FluidOptions) (r : FluidResult)
    (h : resolveFluid ⟨some f⟩ o = some r) :
    (r.srcSet.map Prod.fst).Sorted (· ≤ ·) ∧
      ∀ p ∈ r.srcSet, p.1 ≤ f.width ∧ p.1 ≤ 4000 := by
  unfold resolveFluid at h
  cases hI : isImage ⟨some f⟩ with
  | false => rw [hI] at h; simp at h
  | true =>
    rw [hI] at h
    simp only [Bool.not_true, Bool.false_eq_true, if_false] at h
    obtain ⟨rfl⟩ : r = _ := by
      cases h
      rfl
    refine srcSet_sorted_bounded _ f.width _ (condAppendBound f.width _ _ _ ?_ ?_)
    · intro size hmem
      rw [List.mem_filter] at hmem
      have hcond := of_decide_eq_true hmem.2
      exact ⟨hcond.2.2, hcond.1⟩
    · intro hc
      simp only [Bool.and_eq_true, decide_eq_true_eq] at hc
      exact ⟨le_refl f.width, le_of_lt hc.1.2⟩

/-- C7: for every raster asset and request, every candidate width placed by
`resolveFixed` or `resolveFluid` in the generated srcSet is at most the
source asset's width and at most 4000, and the srcSet entries are sorted in
ascending order of width. -/
theorem C7_srcSet_bounded_sorted (f : ImageFile) (oF : FixedOptions) (oFl : FluidOptions)
    (rF : FixedResult) (rFl : FluidResult)
    (hF : resolveFixed ⟨some f⟩ oF = some rF) (hFl : resolveFluid ⟨some f⟩ oFl = some rFl) :
    ((rF.srcSet.map Prod.fst).Sorted (· ≤ ·) ∧
        ∀ p ∈ rF.srcSet, p.1 ≤ f.width ∧ p.1 ≤ 4000) ∧
      ((rFl.srcSet.map Prod.fst).Sorted (· ≤ ·) ∧
        ∀ p ∈ rFl.srcSet, p.1 ≤ f.width ∧ p.1 ≤ 4000) :=
  ⟨resolveFixed_srcSet f oF rF hF, resolveFluid_srcSet f oFl rFl hFl⟩

/-- Witness for C7 at the sample asset. -/
theorem C7_srcSet_bounded_sorted_witness :
    resolveFixed sampleImage { width := none, height := some 300, resizingBehavior := none }
        = some c1FixedRes ∧
    resolveFluid sampleImage
        { maxWidth := some 100, maxHeight := none, resizingBehavior := none, sizes := some "100vw" }
        = some c1FluidRes ∧
    (((c1FixedRes.srcSet.map Prod.fst).Sorted (· ≤ ·) ∧
        ∀ p ∈ c1FixedRes.srcSet, p.1 ≤ sampleFile.width ∧ p.1 ≤ 4000) ∧
      ((c1FluidRes.srcSet.map Prod.fst).Sorted (· ≤ ·) ∧
        ∀ p ∈ c1FluidRes.srcSet, p.1 ≤ sampleFile.width ∧ p.1 ≤ 4000)) :=
  ⟨sampleFixedEval, sampleFluidEval,
    C7_srcSet_bounded_sorted sampleFile _ _ _ _ sampleFixedEval sampleFluidEval⟩


/-- Lookup after in-place replacement (`Map.set` on a present key). -/
theorem cacheGet_replace {α : Type} (m : List (String × α)) (k : String) (v : α)
    (hm : m.any (fun p => p.1 == k) = true) :
    cacheGet (m.map (fun p => if p.1 == k then (p.1, v) else p)) k = some v := by
  induction m with
  | nil => simp at hm
  | cons p m ih =>
    rw [List.map_cons]
    by_cases hp : (p.1 == k) = true
    · rw [if_pos hp]
      unfold cacheGet
      rw [List.find?_cons_of_pos _ (by simpa using hp)]
      rfl
    · rw [if_neg hp]
      unfold cacheGet
      rw [List.find?_cons_of_neg _ (by simpa using hp)]
      have hm' : m.any (fun p => p.1 == k) = true := by
        simp only [List.any_cons, Bool.or_eq_true] at hm
        rcases hm with hm | hm
        · exact absurd hm hp
        · exact hm
      exact ih hm'

/-- Lookup after appending a fresh key (`Map.set` on an absent key). -/
theorem cacheGet_append_self {α : Type} (m : List (String × α)) (k : String) (v : α)
    (hm : m.any (fun p => p.1 == k) = false) :
    cacheGet (m ++ [(k, v)]) k = some v := by
  unfold cacheGet
  rw [List.find?_append]
  have h1 : m.find? (fun p => p.1 == k) = none := by
    rw [List.find?_eq_none]
    intro x hx
    have := (List.any_eq_false.mp hm) x hx
    simpa using this
  rw [h1]
  simp [List.find?]

/-- `Map.set` followed by lookup of the same key yields the new value. -/
theorem cacheGet_cacheSet_self {α : Type} (m : List (String × α)) (k : String) (v : α) :
    cacheGet (cacheSet m k v) k = some v := by
  unfold cacheSet
  by_cases hm : m.any (fun p => p.1 == k) = true
  · rw [if_pos hm]
    exact cacheGet_replace m k v hm
  · rw [if_neg hm]
    exact cacheGet_append_self m k v (Bool.not_eq_true _ ▸ Bool.of_not_eq_true hm)


/-! ## Claim theorems for the placeholder cache -/

/-- C8: `getBase64Image` serves a resolved URL synchronously without touching
the caches, returns the already-registered promise for an in-flight URL
without dispatching a fetch, and otherwise dispatches exactly one fetch and
registers its promise as in flight — so a second concurrent request for the
same URL receives the first request's promise and dispatches nothing. -/
theorem C8_cache_coalescing (stA stB stC : B64Cache) (pA pB pC : B64Props)
    (body : String) (pid : Nat)
    (hAurl : jsIncludes pA.baseUrl "images.ctfassets.net" = true)
    (hBurl : jsIncludes pB.baseUrl "images.ctfassets.net" = true)
    (hCurl : jsIncludes pC.baseUrl "images.ctfassets.net" = true)
    (hAres : cacheGet stA.resolved (b64RequestUrl pA) = some body)
    (hBres : cacheGet stB.resolved (b64RequestUrl pB) = none)
    (hBin : cacheGet stB.inFlight (b64RequestUrl pB) = some pid)
    (hCres : cacheGet stC.resolved (b64RequestUrl pC) = none)
    (hCin : cacheGet stC.inFlight (b64RequestUrl pC) = none) :
    getBase64Image stA (some pA) = (.sync body, stA) ∧
    (getBase64Image stB (some pB) = (.inflight pid, stB) ∧
      (getBase64Image stB (some pB)).1.dispatches = false) ∧
    ((getBase64Image stC (some pC)).1 = .fetched stC.nextId ∧
      (getBase64Image stC (some pC)).1.dispatches = true ∧
      cacheGet (getBase64Image stC (some pC)).2.inFlight (b64RequestUrl pC)
        = some stC.nextId ∧
      getBase64Image (getBase64Image stC (some pC)).2 (some pC)
          = (.inflight stC.nextId, (getBase64Image stC (some pC)).2) ∧
      (getBase64Image (getBase64Image stC (some pC)).2 (some pC)).1.dispatches = false) := by
  refine ⟨?_, ⟨?_, ?_⟩, ?_, ?_, ?_, ?_, ?_⟩
  · simp [getBase64Image, hAurl, hAres]
  · simp [getBase64Image, hBurl, hBres, hBin]
  · simp [getBase64Image, hBurl, hBres, hBin, B64Result.dispatches]
  · simp [getBase64Image, hCurl, hCres, hCin]
  · simp [getBase64Image, hCurl, hCres, hCin, B64Result.dispatches]
  · simp [getBase64Image, hCurl, hCres, hCin, cacheGet_cacheSet_self]
  · simp [getBase64Image, hCurl, hCres, hCin, cacheGet_cacheSet_self]
  · simp [getBase64Image, hCurl, hCres, hCin, cacheGet_cacheSet_self, B64Result.dispatches]

/-- A concrete Contentful-hosted placeholder props record. -/
def c2Props : B64Props := { baseUrl := "//images.ctfassets.net/x/y.png" }

/-- Its thumbnail URL is a Contentful URL. -/
theorem c2PropsUrlOk : jsIncludes c2Props.baseUrl "images.ctfassets.net" = true := by decide

/-- The cache state right after the first (only) fetch for `c2Props` was
dispatched: its promise, id 0, is registered in flight. -/
def c2St1 : B64Cache :=
  { inFlight := [(b64RequestUrl c2Props, 0)], resolved := [], nextId := 1 }

/-- C2 counterexample: after the fetch for the placeholder URL fails, the URL
is still in the in-flight map, and the next call for the same URL returns the
same (rejected) promise instead of starting a new fetch — the claim's
"removed from the in-flight map" and "starts a new fetch (retries)" are both
false of the code. -/
theorem C2_counterexample :
    b64SettleFailure c2St1 (b64RequestUrl c2Props) = c2St1 ∧
    cacheGet (b64SettleFailure c2St1 (b64RequestUrl c2Props)).inFlight
      (b64RequestUrl c2Props) = some 0 ∧
    (getBase64Image (b64SettleFailure c2St1 (b64RequestUrl c2Props)) (some c2Props)).1
      = .inflight 0 ∧
    (getBase64Image (b64SettleFailure c2St1 (b64RequestUrl c2Props)) (some c2Props)).1.dispatches
      = false := by
  refine ⟨rfl, ?_, ?_, ?_⟩
  · simp [b64SettleFailure, c2St1, cacheGet]
  · simp [getBase64Image, b64SettleFailure, c2St1, cacheGet, c2PropsUrlOk]
  · simp [getBase64Image, b64SettleFailure, c2St1, cacheGet, c2PropsUrlOk,
      B64Result.dispatches]

/-- C2 (amended): when the fetch for a placeholder URL fails, the rejection
reaches every waiter (all callers hold handles on the one registered promise,
and the next caller receives that same promise); nothing is inserted into the
resolved map, but — contrary to the claim — the URL is *not* removed from the
in-flight map: the fulfillment handler is the only `.then` continuation, so a
rejected promise stays in flight and a subsequent call with the same URL
returns the same rejected promise instead of starting a new fetch. -/
theorem C2_failure_keeps_inflight (st st1 : B64Cache) (props : B64Props) (pid : Nat)
    (hurl : jsIncludes props.baseUrl "images.ctfassets.net" = true)
    (hres : cacheGet st.resolved (b64RequestUrl props) = none)
    (hin : cacheGet st.inFlight (b64RequestUrl props) = none)
    (hcall : getBase64Image st (some props) = (.fetched pid, st1)) :
    b64SettleFailure st1 (b64RequestUrl props) = st1 ∧
    cacheGet (b64SettleFailure st1 (b64RequestUrl props)).inFlight (b64RequestUrl props)
      = some pid ∧
    cacheGet (b64SettleFailure st1 (b64RequestUrl props)).resolved (b64RequestUrl props)
      = none ∧
    getBase64Image (b64SettleFailure st1 (b64RequestUrl props)) (some props)
      = (.inflight pid, b64SettleFailure st1 (b64RequestUrl props)) ∧
    (getBase64Image (b64SettleFailure st1 (b64RequestUrl props)) (some props)).1.dispatches
      = false := by
  have hc : getBase64Image st (some props) =
      (.fetched st.nextId,
        { st with inFlight := cacheSet st.inFlight (b64RequestUrl props) st.nextId,
                  nextId := st.nextId + 1 }) := by
    simp [getBase64Image, hurl, hres, hin]
  rw [hc] at hcall
  injection hcall with h1 h2
  injection h1 with h1
  subst h1
  subst h2
  refine ⟨rfl, ?_, ?_, ?_, ?_⟩
  · simpa [b64SettleFailure] using
      cacheGet_cacheSet_self st.inFlight (b64RequestUrl props) st.nextId
  · simpa [b64SettleFailure] using hres
  · simp [getBase64Image, b64SettleFailure, hurl, hres, cacheGet_cacheSet_self]
  · simp [getBase64Image, b64SettleFailure, hurl, hres, cacheGet_cacheSet_self,
      B64Result.dispatches]

/-- The first call on the empty cache dispatches promise 0 and registers it. -/
theorem b64FirstCallEval :
    getBase64Image B64Cache.empty (some c2Props) = (.fetched 0, c2St1) := by
  simp [getBase64Image, B64Cache.empty, c2St1, cacheGet, cacheSet, c2PropsUrlOk]

/-- Witness for C2's amended theorem: the concrete failed fetch for `c2Props`
starting from the empty cache. -/
theorem C2_failure_keeps_inflight_witness :
    jsIncludes c2Props.baseUrl "images.ctfassets.net" = true ∧
    cacheGet B64Cache.empty.resolved (b64RequestUrl c2Props) = none ∧
    cacheGet B64Cache.empty.inFlight (b64RequestUrl c2Props) = none ∧
    getBase64Image B64Cache.empty (some c2Props) = (.fetched 0, c2St1) ∧
    (b64SettleFailure c2St1 (b64RequestUrl c2Props) = c2St1 ∧
      cacheGet (b64SettleFailure c2St1 (b64RequestUrl c2Props)).inFlight
        (b64RequestUrl c2Props) = some 0 ∧
      cacheGet (b64SettleFailure c2St1 (b64RequestUrl c2Props)).resolved
        (b64RequestUrl c2Props) = none ∧
      getBase64Image (b64SettleFailure c2St1 (b64RequestUrl c2Props)) (some c2Props)
        = (.inflight 0, b64SettleFailure c2St1 (b64RequestUrl c2Props)) ∧
      (getBase64Image (b64SettleFailure c2St1 (b64RequestUrl c2Props))
        (some c2Props)).1.dispatches = false) :=
  ⟨c2PropsUrlOk, rfl, rfl, b64FirstCallEval,
    C2_failure_keeps_inflight B64Cache.empty c2St1 c2Props 0 c2PropsUrlOk rfl rfl
      b64FirstCallEval⟩

/-- Scenario-A props for the C8 witness (already resolved). -/
def c8PropsA : B64Props := { baseUrl := "//images.ctfassets.net/a/1.png" }

/-- Scenario-B props for the C8 witness (currently in flight). -/
def c8PropsB : B64Props := { baseUrl := "//images.ctfassets.net/b/2.png" }

/-- Scenario-C props for the C8 witness (not seen before). -/
def c8PropsC : B64Props := { baseUrl := "//images.ctfassets.net/c/3.png" }

/-- A state in which scenario A's thumbnail is already resolved. -/
def c8StA : B64Cache :=
  { inFlight := [], resolved := [(b64RequestUrl c8PropsA, "data:image/jpeg;base64,AA")],
    nextId := 3 }

/-- A state in which scenario B's thumbnail is in flight as promise 7. -/
def c8StB : B64Cache :=
  { inFlight := [(b64RequestUrl c8PropsB, 7)], resolved := [], nextId := 5 }

/-- Witness for C8 at the three concrete scenarios. -/
theorem C8_cache_coalescing_witness :
    (jsIncludes c8PropsA.baseUrl "images.ctfassets.net" = true ∧
      jsIncludes c8PropsB.baseUrl "images.ctfassets.net" = true ∧
      jsIncludes c8PropsC.baseUrl "images.ctfassets.net" = true ∧
      cacheGet c8StA.resolved (b64RequestUrl c8PropsA)
        = some "data:image/jpeg;base64,AA" ∧
      cacheGet c8StB.resolved (b64RequestUrl c8PropsB) = none ∧
      cacheGet c8StB.inFlight (b64RequestUrl c8PropsB) = some 7 ∧
      cacheGet B64Cache.empty.resolved (b64RequestUrl c8PropsC) = none ∧
      cacheGet B64Cache.empty.inFlight (b64RequestUrl c8PropsC) = none) ∧
    (getBase64Image c8StA (some c8PropsA) = (.sync "data:image/jpeg;base64,AA", c8StA) ∧
      (getBase64Image c8StB (some c8PropsB) = (.inflight 7, c8StB) ∧
        (getBase64Image c8StB (some c8PropsB)).1.dispatches = false) ∧
      ((getBase64Image B64Cache.empty (some c8PropsC)).1 = .fetched B64Cache.empty.nextId ∧
        (getBase64Image B64Cache.empty (some c8PropsC)).1.dispatches = true ∧
        cacheGet (getBase64Image B64Cache.empty (some c8PropsC)).2.inFlight
          (b64RequestUrl c8PropsC) = some B64Cache.empty.nextId ∧
        getBase64Image (getBase64Image B64Cache.empty (some c8PropsC)).2 (some c8PropsC)
            = (.inflight B64Cache.empty.nextId,
              (getBase64Image B64Cache.empty (some c8PropsC)).2) ∧
        (getBase64Image (getBase64Image B64Cache.empty (some c8PropsC)).2
          (some c8PropsC)).1.dispatches = false)) :=
  ⟨⟨by decide, by decide, by decide, by simp [c8StA, cacheGet], rfl,
      by simp [c8StB, cacheGet], rfl, rfl⟩,
    C8_cache_coalescing c8StA c8StB B64Cache.empty c8PropsA c8PropsB c8PropsC _ 7
      (by decide) (by decide) (by decide) (by simp [c8StA, cacheGet]) rfl
      (by simp [c8StB, cacheGet]) rfl rfl⟩


/-! ## Claim theorems for `getLocalizedField` -/

/-- The fallback chain starting at `code` dies out within `n` steps: either
`code` has no (defined) fallback, or its fallback's chain dies out within
`n - 1` steps. -/
def fbChainDies (fb : JObj) : Nat → String → Prop
  | 0, _ => False
  | n + 1, code =>
    (jsGet fb code).isUndef = true ∨ fbChainDies fb n (jvStr (jsGet fb code))

/-- On a fallback chain that dies out within `n` steps, fuel `n` suffices:
`getLocalizedField` returns (it does not run out of fuel), for every field
bag. -/
theorem getLocalizedField_isSome_of_dies :
    ∀ (n : Nat) (fb : JObj) (code : String), fbChainDies fb n code →
      ∀ field, (getLocalizedField n field code fb).isSome = true := by
  intro n
  induction n with
  | zero =>
    intro fb code h field
    exact h.elim
  | succ n ih =>
    intro fb code h field
    simp only [getLocalizedField]
    by_cases hv : (jvGet field code).isUndef = true
    · by_cases hf : (jsGet fb code).isUndef = true
      · simp [hv, hf]
      · simp only [hv, Bool.not_true, Bool.false_eq_true, if_false, hf, Bool.not_false, if_true]
        apply ih
        rcases h with h | h
        · exact absurd h hf
        · exact h
    · simp [hv]

/-- The two-locale cyclic fallback chain `en -> de -> en`. -/
def cyclicFallback : JObj := [("en", .str "de"), ("de", .str "en")]

/-- On the cyclic chain with an empty field bag, the recursion never returns,
whatever the fuel: there is no revisit detection. -/
theorem cyclicFallback_diverges (n : Nat) :
    getLocalizedField n (.obj []) "en" cyclicFallback = none ∧
    getLocalizedField n (.obj []) "de" cyclicFallback = none := by
  induction n with
  | zero => exact ⟨rfl, rfl⟩
  | succ n ih =>
    refine ⟨?_, ?_⟩
    · rw [show getLocalizedField (n + 1) (.obj []) "en" cyclicFallback
          = getLocalizedField n (.obj []) "de" cyclicFallback from rfl]
      exact ih.2
    · rw [show getLocalizedField (n + 1) (.obj []) "de" cyclicFallback
          = getLocalizedField n (.obj []) "en" cyclicFallback from rfl]
      exact ih.1

/-- C3 counterexample: with the cyclic fallback chain `en -> de -> en` and an
empty field bag, `getLocalizedField` is still recursing after 50 unfoldings
and in particular has not detected the revisit and returned null — the
claimed defensive cycle guard does not exist in the code. -/
theorem C3_counterexample :
    getLocalizedField 50 (.obj []) "en" cyclicFallback = none ∧
    getLocalizedField 50 (.obj []) "en" cyclicFallback ≠ some JValue.null := by
  have h : getLocalizedField 50 (.obj []) "en" cyclicFallback = none := rfl
  exact ⟨h, by rw [h]; simp⟩

/-- C3 (amended): `getLocalizedField` returns the value at the locale's code
when defined, otherwise recurses along the fallback chain, and returns null
when the chain ends with no value; it terminates on every fallback chain that
dies out, with recursion depth bounded by the chain length.  But there is no
defensive cycle guard: on a cyclic fallback chain with no value present the
recursion never returns (in JS, it loops until stack exhaustion) instead of
detecting the revisited locale and returning null. -/
theorem C3_locale_fallback_amended :
    (∀ (fuel : Nat) (field : JValue) (code : String) (fb : JObj),
        (jvGet field code).isUndef = false →
        getLocalizedField (fuel + 1) field code fb = some (jvGet field code)) ∧
    (∀ (fuel : Nat) (field : JValue) (code : String) (fb : JObj),
        (jvGet field code).isUndef = true → (jsGet fb code).isUndef = false →
        getLocalizedField (fuel + 1) field code fb
          = getLocalizedField fuel field (jvStr (jsGet fb code)) fb) ∧
    (∀ (fuel : Nat) (field : JValue) (code : String) (fb : JObj),
        (jvGet field code).isUndef = true → (jsGet fb code).isUndef = true →
        getLocalizedField (fuel + 1) field code fb = some JValue.null) ∧
    (∀ (n : Nat) (fb : JObj) (code : String), fbChainDies fb n code →
        ∀ field, (getLocalizedField n field code fb).isSome = true) ∧
    (∀ n : Nat, getLocalizedField n (.obj []) "en" cyclicFallback = none) := by
  refine ⟨?_, ?_, ?_, getLocalizedField_isSome_of_dies, fun n => (cyclicFallback_diverges n).1⟩
  · intro fuel field code fb h
    simp [getLocalizedField, h]
  · intro fuel field code fb hv hf
    simp [getLocalizedField, hv, hf]
  · intro fuel field code fb hv hf
    simp [getLocalizedField, hv, hf]

/-- Witness for C3's amended theorem: each conjunct applied at a concrete
field bag, locale and fallback chain. -/
theorem C3_locale_fallback_amended_witness :
    getLocalizedField 1 (.obj [("en", .str "Hello")]) "en" [] = some (.str "Hello") ∧
    getLocalizedField 2 (.obj [("de", .str "Hallo")]) "en" [("en", .str "de")]
      = getLocalizedField 1 (.obj [("de", .str "Hallo")]) "de" [("en", .str "de")] ∧
    getLocalizedField 1 (.obj []) "en" [] = some JValue.null ∧
    (getLocalizedField 2 (.obj []) "en" [("en", .str "de")]).isSome = true ∧
    getLocalizedField 50 (.obj []) "en" cyclicFallback = none :=
  ⟨C3_locale_fallback_amended.1 0 (.obj [("en", .str "Hello")]) "en" [] rfl,
    C3_locale_fallback_amended.2.1 1 (.obj [("de", .str "Hallo")]) "en"
      [("en", .str "de")] rfl rfl,
    C3_locale_fallback_amended.2.2.1 0 (.obj []) "en" [] rfl rfl,
    C3_locale_fallback_amended.2.2.2.1 2 [("en", .str "de")] "en"
      (Or.inr (Or.inl rfl)) (.obj []),
    C3_locale_fallback_amended.2.2.2.2 50⟩

end Contentful
namespace Contentful

/-! ## Association-list lemmas for the JS object operations -/

/-- Filtering out only elements the predicate rejects does not change `find?`. -/
theorem find?_filter_of_imp {α : Type} (l : List α) (g pred : α → Bool)
    (h : ∀ q ∈ l, pred q = true → g q = true) :
    List.find? pred (l.filter g) = List.find? pred l := by
  induction l with
  | nil => rfl
  | cons q l ih =>
    by_cases hq : pred q = true
    · have hg := h q (by simp) hq
      rw [List.filter_cons_of_pos hg]
      simp only [List.find?_cons, hq]
    · have hq' : pred q = false := Bool.of_not_eq_true hq
      by_cases hg : g q = true
      · rw [List.filter_cons_of_pos hg]
        simp only [List.find?_cons, hq']
        exact ih (fun q hqm => h q (by simp [hqm]))
      · rw [List.filter_cons_of_neg (by simpa using hg)]
        have := ih (fun q hqm => h q (by simp [hqm]))
        rw [this]
        simp only [List.find?_cons, hq']
  
/-- `find?` by key commutes with a key-preserving map. -/
theorem find?_map_key_preserve {α : Type} (f : (String × α) → (String × α))
    (hf : ∀ p, (f p).1 = p.1) (l : List (String × α)) (k : String) :
    List.find? (fun p => p.1 == k) (l.map f)
      = (List.find? (fun p => p.1 == k) l).map f := by
  induction l with
  | nil => rfl
  | cons p l ih =>
    rw [List.map_cons]
    by_cases hp : (p.1 == k) = true
    · simp only [List.find?_cons, hf, hp]
      rfl
    · have hp' : (p.1 == k) = false := Bool.of_not_eq_true hp
      simp only [List.find?_cons, hf, hp']
      exact ih

/-- Setting a different key does not change a lookup. -/
theorem cacheGet_cacheSet_ne {α : Type} (m : List (String × α)) (k k' : String) (v : α)
    (h : (k' == k) = false) :
    cacheGet (cacheSet m k' v) k = cacheGet m k := by
  unfold cacheSet
  by_cases hm : m.any (fun p => p.1 == k') = true
  · rw [if_pos hm]
    unfold cacheGet
    rw [find?_map_key_preserve (fun p => if p.1 == k' then (p.1, v) else p)
      (fun p => by by_cases hp : (p.1 == k') = true <;> simp [hp]) m k]
    cases hfind : List.find? (fun p => p.1 == k) m with
    | none => rfl
    | some p =>
      have hpk := List.find?_some hfind
      have hpk' : (p.1 == k') = false := by
        rw [eq_of_beq hpk]
        rw [Bool.beq_comm] at h
        exact h
      simp [hpk', ne_of_beq_false hpk']
  · rw [if_neg hm]
    unfold cacheGet
    rw [List.find?_append]
    have h1 : List.find? (fun p => p.1 == k) [(k', v)] = none := by
      simp only [List.find?_cons, h]
      rfl
    rw [h1]
    cases List.find? (fun p => p.1 == k) m <;> rfl

/-- Deleting a key makes its lookup fail. -/
theorem cacheGet_cacheDelete_self {α : Type} (m : List (String × α)) (k : String) :
    cacheGet (cacheDelete m k) k = none := by
  unfold cacheGet cacheDelete
  rw [List.find?_eq_none.mpr]
  · rfl
  · intro p hp
    have := List.of_mem_filter hp
    simp only [bne_iff_ne, ne_eq] at this
    simp [this]

/-- Deleting a different key does not change a lookup. -/
theorem cacheGet_cacheDelete_ne {α : Type} (m : List (String × α)) (k k' : String)
    (h : (k' == k) = false) :
    cacheGet (cacheDelete m k') k = cacheGet m k := by
  unfold cacheGet cacheDelete
  rw [find?_filter_of_imp]
  intro q _ hq
  have hqk : q.1 = k := eq_of_beq hq
  have hne : (q.1 == k') = false := by
    rw [hqk, Bool.beq_comm]
    exact h
  simp [bne, hne]

end Contentful
namespace Contentful

/-- `jsSet` and `cacheSet` are the same algorithm. -/
theorem jsSet_eq_cacheSet (o : JObj) (k : String) (v : JValue) :
    jsSet o k v = cacheSet o k v := rfl

/-- `jsDelete` and `cacheDelete` are the same algorithm. -/
theorem jsDelete_eq_cacheDelete (o : JObj) (k : String) :
    jsDelete o k = cacheDelete o k := rfl

/-- `jsGet` is `cacheGet` with `undefined` for a missing key. -/
theorem jsGet_eq_cacheGet (o : JObj) (k : String) :
    jsGet o k = (cacheGet o k).getD .undef := by
  unfold jsGet cacheGet
  cases List.find? (fun p => p.1 == k) o <;> rfl

/-- Writing a key then reading it yields the written value. -/
theorem jsGet_jsSet_self (o : JObj) (k : String) (v : JValue) :
    jsGet (jsSet o k v) k = v := by
  rw [jsSet_eq_cacheSet, jsGet_eq_cacheGet, cacheGet_cacheSet_self]
  rfl

/-- Writing a different key leaves a read unchanged. -/
theorem jsGet_jsSet_ne (o : JObj) (k k' : String) (v : JValue) (h : (k' == k) = false) :
    jsGet (jsSet o k' v) k = jsGet o k := by
  rw [jsSet_eq_cacheSet, jsGet_eq_cacheGet, cacheGet_cacheSet_ne _ _ _ _ h,
    jsGet_eq_cacheGet]

/-- Deleting a key makes its read yield `undefined`. -/
theorem jsGet_jsDelete_self (o : JObj) (k : String) :
    jsGet (jsDelete o k) k = .undef := by
  rw [jsDelete_eq_cacheDelete, jsGet_eq_cacheGet, cacheGet_cacheDelete_self]
  rfl

/-- Deleting a different key leaves a read unchanged. -/
theorem jsGet_jsDelete_ne (o : JObj) (k k' : String) (h : (k' == k) = false) :
    jsGet (jsDelete o k') k = jsGet o k := by
  rw [jsDelete_eq_cacheDelete, jsGet_eq_cacheGet, cacheGet_cacheDelete_ne _ _ _ h,
    jsGet_eq_cacheGet]

/-- Reading an appended object: the left part wins when it has the key. -/
theorem jsGet_append (l₁ l₂ : JObj) (k : String) :
    jsGet (l₁ ++ l₂) k
      = (match List.find? (fun p => p.1 == k) l₁ with
          | some p => p.2
          | none => jsGet l₂ k) := by
  unfold jsGet
  rw [List.find?_append]
  cases List.find? (fun p => p.1 == k) l₁ <;> rfl

/-- Reading through a filter that only drops non-matching keys. -/
theorem jsGet_filter_of_imp (l : JObj) (g : String × JValue → Bool) (k : String)
    (h : ∀ q ∈ l, (q.1 == k) = true → g q = true) :
    jsGet (l.filter g) k = jsGet l k := by
  unfold jsGet
  rw [find?_filter_of_imp l g _ h]

/-- A key present in `b` reads `b`'s value through the spread `{...a, ...b}`.
This is the precise sense in which the later spread always wins. -/
theorem jsGet_jsSpread2_mem (a b : JObj) (k : String)
    (hb : b.any (fun p => p.1 == k) = true) :
    jsGet (jsSpread2 a b) k = jsGet b k := by
  unfold jsSpread2
  have hf : ∀ p : String × JValue,
      ((fun p => if b.any (fun q => q.1 == p.1) then (p.1, jsGet b p.1) else p) p).1 = p.1 := by
    intro p
    by_cases hc : b.any (fun q => q.1 == p.1) = true <;> simp [hc]
  rw [jsGet_append]
  rw [find?_map_key_preserve _ hf a k]
  cases hq : List.find? (fun p => p.1 == k) a with
  | none =>
    simp only [Option.map_none']
    apply jsGet_filter_of_imp
    intro q _ hqk
    have ha : a.any (fun p => p.1 == k) = false := by
      cases hcon : a.any (fun p => p.1 == k) with
      | false => rfl
      | true =>
        obtain ⟨x, hx, hxk⟩ := List.any_eq_true.mp hcon
        have : (List.find? (fun p => p.1 == k) a).isSome := by
          rw [List.find?_isSome]
          exact ⟨x, hx, hxk⟩
        rw [hq] at this
        cases this
    have : a.any (fun p => p.1 == q.1) = false := by
      rw [eq_of_beq hqk]
      exact ha
    simp [this]
  | some q =>
    have hqk := List.find?_some hq
    simp only [Option.map_some']
    show (if b.any (fun r => r.1 == q.1) then (q.1, jsGet b q.1) else q).2 = jsGet b k
    rw [eq_of_beq hqk, if_pos hb]

end Contentful
namespace Contentful

/-- The second variant's node assembly (lines 1200-1204 of `normalize.js`):
the same spread plus `node_locale`, the digest being part of `internal` since
the node literal was built. -/
def assembleEntryNodeV2 (entryItemFields : JObj) (entryNode : JValue)
    (localeCode : String) : JValue :=
  let coreFields :=
    match entryNode with
    | .obj fs => fs
    | _ => []
  .obj (jsSet (jsSpread2 entryItemFields coreFields) "node_locale" (.str localeCode))

/-- Any core key other than `node_locale` and `internal` survives assembly
with its core value, whatever the transformed entry fields contain. -/
theorem assembleEntryNode_core_key (fields coreFields : JObj)
    (localeCode updatedAt k : String)
    (hk : coreFields.any (fun p => p.1 == k) = true)
    (hNL : ("node_locale" == k) = false) (hInt : ("internal" == k) = false) :
    jvGet (assembleEntryNode fields (.obj coreFields) localeCode updatedAt) k
      = jsGet coreFields k := by
  unfold assembleEntryNode
  dsimp only [jvGet]
  rw [jsGet_jsSet_ne _ _ _ _ hInt, jsGet_jsSet_ne _ _ _ _ hNL,
    jsGet_jsSpread2_mem _ _ _ hk]

/-- The assembled node's `internal` is the core `internal` object with
`contentDigest` set to the entry's `updatedAt`. -/
theorem assembleEntryNode_internal (fields coreFields internalFields : JObj)
    (localeCode updatedAt : String)
    (hk : coreFields.any (fun p => p.1 == "internal") = true)
    (hInt : jsGet coreFields "internal" = .obj internalFields) :
    jvGet (assembleEntryNode fields (.obj coreFields) localeCode updatedAt) "internal"
      = .obj (jsSet internalFields "contentDigest" (.str updatedAt)) := by
  unfold assembleEntryNode
  dsimp only [jvGet]
  have hmerged : jsGet (jsSet (jsSpread2 fields coreFields) "node_locale"
      (.str localeCode)) "internal" = .obj internalFields := by
    rw [jsGet_jsSet_ne _ _ _ _ (by decide), jsGet_jsSpread2_mem _ _ _ hk, hInt]
  rw [jsGet_jsSet_self, hmerged]

/-- Any core key other than `node_locale` survives the second variant's
assembly with its core value. -/
theorem assembleEntryNodeV2_core_key (fields coreFields : JObj) (localeCode k : String)
    (hk : coreFields.any (fun p => p.1 == k) = true)
    (hNL : ("node_locale" == k) = false) :
    jvGet (assembleEntryNodeV2 fields (.obj coreFields) localeCode) k
      = jsGet coreFields k := by
  unfold assembleEntryNodeV2
  dsimp only [jvGet]
  rw [jsGet_jsSet_ne _ _ _ _ hNL, jsGet_jsSpread2_mem _ _ _ hk]

end Contentful
namespace Contentful

/-- The core entry-node literal of the first variant (lines 446-458). -/
def entryNodeCoreV1 (entryNodeId spaceId contentfulId createdAtV updatedAtV parentV
    typeName sysId : String) (children : List JValue) : JObj :=
  [ ("id", .str entryNodeId),
    ("spaceId", .str spaceId),
    ("contentful_id", .str contentfulId),
    ("createdAt", .str createdAtV),
    ("updatedAt", .str updatedAtV),
    ("parent", .str parentV),
    ("children", .arr children),
    ("internal", .obj [("type", .str typeName)]),
    ("sys___NODE", .str sysId) ]

/-- The core entry-node literal of the second variant (lines 1141-1155). -/
def entryNodeCoreV2 (entryNodeId spaceId contentfulId createdAtV updatedAtV parentV
    typeName : String) (children : List JValue) (sysFields : JObj) : JObj :=
  [ ("id", .str entryNodeId),
    ("spaceId", .str spaceId),
    ("contentful_id", .str contentfulId),
    ("createdAt", .str createdAtV),
    ("updatedAt", .str updatedAtV),
    ("parent", .str parentV),
    ("children", .arr children),
    ("internal", .obj
      [("type", .str typeName), ("contentDigest", .str updatedAtV)]),
    ("sys", .obj sysFields) ]

/-- C10: in both variants the node assembly spreads the transformed entry
fields first and the core attributes second, so id, spaceId, contentful_id,
createdAt, updatedAt, parent, children, internal and the sys linkage always
carry their core values in the assembled node, whatever fields (even ones
sharing those names) the entry supplied. -/
theorem C10_core_attributes_protected (entryItemFields : JObj)
    (entryNodeId spaceId contentfulId createdAtV updatedAtV parentV typeName sysId
      localeCode : String) (children : List JValue) (sysFields : JObj) :
    (jvGet (assembleEntryNode entryItemFields
        (.obj (entryNodeCoreV1 entryNodeId spaceId contentfulId createdAtV updatedAtV
          parentV typeName sysId children)) localeCode updatedAtV) "id"
        = .str entryNodeId ∧
      jvGet (assembleEntryNode entryItemFields
        (.obj (entryNodeCoreV1 entryNodeId spaceId contentfulId createdAtV updatedAtV
          parentV typeName sysId children)) localeCode updatedAtV) "spaceId"
        = .str spaceId ∧
      jvGet (assembleEntryNode entryItemFields
        (.obj (entryNodeCoreV1 entryNodeId spaceId contentfulId createdAtV updatedAtV
          parentV typeName sysId children)) localeCode updatedAtV) "contentful_id"
        = .str contentfulId ∧
      jvGet (assembleEntryNode entryItemFields
        (.obj (entryNodeCoreV1 entryNodeId spaceId contentfulId createdAtV updatedAtV
          parentV typeName sysId children)) localeCode updatedAtV) "createdAt"
        = .str createdAtV ∧
      jvGet (assembleEntryNode entryItemFields
        (.obj (entryNodeCoreV1 entryNodeId spaceId contentfulId createdAtV updatedAtV
          parentV typeName sysId children)) localeCode updatedAtV) "updatedAt"
        = .str updatedAtV ∧
      jvGet (assembleEntryNode entryItemFields
        (.obj (entryNodeCoreV1 entryNodeId spaceId contentfulId createdAtV updatedAtV
          parentV typeName sysId children)) localeCode updatedAtV) "parent"
        = .str parentV ∧
      jvGet (assembleEntryNode entryItemFields
        (.obj (entryNodeCoreV1 entryNodeId spaceId contentfulId createdAtV updatedAtV
          parentV typeName sysId children)) localeCode updatedAtV) "children"
        = .arr children ∧
      jvGet (assembleEntryNode entryItemFields
        (.obj (entryNodeCoreV1 entryNodeId spaceId contentfulId createdAtV updatedAtV
          parentV typeName sysId children)) localeCode updatedAtV) "internal"
        = .obj [("type", .str typeName), ("contentDigest", .str updatedAtV)] ∧
      jvGet (assembleEntryNode entryItemFields
        (.obj (entryNodeCoreV1 entryNodeId spaceId contentfulId createdAtV updatedAtV
          parentV typeName sysId children)) localeCode updatedAtV) "sys___NODE"
        = .str sysId) ∧
    (jvGet (assembleEntryNodeV2 entryItemFields
        (.obj (entryNodeCoreV2 entryNodeId spaceId contentfulId createdAtV updatedAtV
          parentV typeName children sysFields)) localeCode) "id"
        = .str entryNodeId ∧
      jvGet (assembleEntryNodeV2 entryItemFields
        (.obj (entryNodeCoreV2 entryNodeId spaceId contentfulId createdAtV updatedAtV
          parentV typeName children sysFields)) localeCode) "spaceId"
        = .str spaceId ∧
      jvGet (assembleEntryNodeV2 entryItemFields
        (.obj (entryNodeCoreV2 entryNodeId spaceId contentfulId createdAtV updatedAtV
          parentV typeName children sysFields)) localeCode) "contentful_id"
        = .str contentfulId ∧
      jvGet (assembleEntryNodeV2 entryItemFields
        (.obj (entryNodeCoreV2 entryNodeId spaceId contentfulId createdAtV updatedAtV
          parentV typeName children sysFields)) localeCode) "createdAt"
        = .str createdAtV ∧
      jvGet (assembleEntryNodeV2 entryItemFields
        (.obj (entryNodeCoreV2 entryNodeId spaceId contentfulId createdAtV updatedAtV
          parentV typeName children sysFields)) localeCode) "updatedAt"
        = .str updatedAtV ∧
      jvGet (assembleEntryNodeV2 entryItemFields
        (.obj (entryNodeCoreV2 entryNodeId spaceId contentfulId createdAtV updatedAtV
          parentV typeName children sysFields)) localeCode) "parent"
        = .str parentV ∧
      jvGet (assembleEntryNodeV2 entryItemFields
        (.obj (entryNodeCoreV2 entryNodeId spaceId contentfulId createdAtV updatedAtV
          parentV typeName children sysFields)) localeCode) "children"
        = .arr children ∧
      jvGet (assembleEntryNodeV2 entryItemFields
        (.obj (entryNodeCoreV2 entryNodeId spaceId contentfulId createdAtV updatedAtV
          parentV typeName children sysFields)) localeCode) "internal"
        = .obj [("type", .str typeName), ("contentDigest", .str updatedAtV)] ∧
      jvGet (assembleEntryNodeV2 entryItemFields
        (.obj (entryNodeCoreV2 entryNodeId spaceId contentfulId createdAtV updatedAtV
          parentV typeName children sysFields)) localeCode) "sys"
        = .obj sysFields) :=
  ⟨⟨assembleEntryNode_core_key _ _ _ _ "id" rfl rfl rfl,
    assembleEntryNode_core_key _ _ _ _ "spaceId" rfl rfl rfl,
    assembleEntryNode_core_key _ _ _ _ "contentful_id" rfl rfl rfl,
    assembleEntryNode_core_key _ _ _ _ "createdAt" rfl rfl rfl,
    assembleEntryNode_core_key _ _ _ _ "updatedAt" rfl rfl rfl,
    assembleEntryNode_core_key _ _ _ _ "parent" rfl rfl rfl,
    assembleEntryNode_core_key _ _ _ _ "children" rfl rfl rfl,
    assembleEntryNode_internal _ _ [("type", .str typeName)] _ _ rfl rfl,
    assembleEntryNode_core_key _ _ _ _ "sys___NODE" rfl rfl rfl⟩,
   ⟨assembleEntryNodeV2_core_key _ _ _ "id" rfl rfl,
    assembleEntryNodeV2_core_key _ _ _ "spaceId" rfl rfl,
    assembleEntryNodeV2_core_key _ _ _ "contentful_id" rfl rfl,
    assembleEntryNodeV2_core_key _ _ _ "createdAt" rfl rfl,
    assembleEntryNodeV2_core_key _ _ _ "updatedAt" rfl rfl,
    assembleEntryNodeV2_core_key _ _ _ "parent" rfl rfl,
    assembleEntryNodeV2_core_key _ _ _ "children" rfl rfl,
    assembleEntryNodeV2_core_key _ _ _ "internal" rfl rfl,
    assembleEntryNodeV2_core_key _ _ _ "sys" rfl rfl⟩⟩

/-! ## Claim theorem for `createAssetNodes` -/

/-- A concrete asset record with a localized file and title, no description
and no revision. -/
def c9Asset : Asset :=
  { sys := { id := "a1", type := "Asset", createdAt := "T0", updatedAt := "T1",
             revision := none, contentType := none },
    fields :=
      [ ("file", .obj [("en-US", .obj
          [("url", .str "//x"), ("contentType", .str "image/png")])]),
        ("title", .obj [("en-US", .str "My title")]) ] }

/-- The asset node the first `createAssetNodes` variant emits for `c9Asset`
at locale `en-US` (with the identity `createNodeId`): file/title resolved
through the fallback chain, description defaulted to the empty string,
`contentDigest` equal to `sys.updatedAt`, no children. -/
def c9ExpectedNode : JValue := .obj
  [ ("contentful_id", .str "a1"),
    ("spaceId", .str "s1"),
    ("id", .str "s1___a1___Asset"),
    ("createdAt", .str "T0"),
    ("updatedAt", .str "T1"),
    ("parent", .null),
    ("children", .arr []),
    ("file", .obj [("url", .str "//x"), ("contentType", .str "image/png")]),
    ("title", .str "My title"),
    ("description", .str ""),
    ("node_locale", .str "en-US"),
    ("internal", .obj [("type", .str "ContentfulAsset"), ("contentDigest", .str "T1")]),
    ("sys", .obj [("type", .str "Asset")]) ]

/-- C9: at the failing input `c9Asset` with the single locale `en-US`, the
second `createAssetNodes` variant (lines 1245-1300) crashes — its final
statement reads `assetNode.internal.createNodePromises`, which is undefined,
and calls `.push` on it — so it emits no nodes at all, while the first
variant (lines 690-745) emits exactly one asset node per locale with the
shape the claim describes. -/
theorem C9_createAssetNodes_bug :
    createAssetNodesV2 (fun s => s) "en-US" "s1" 2 [{ code := "en-US", fallbackCode := none }]
        c9Asset = none ∧
    createAssetNodes (fun s => s) "en-US" "s1" 2 [{ code := "en-US", fallbackCode := none }]
        c9Asset = some [c9ExpectedNode] :=
  ⟨rfl, rfl⟩

end Contentful
namespace Contentful

/-- An entry whose stored digest matches `sys.updatedAt` is skipped before
any other processing. -/
theorem processEntry_skipped (env : NormalizeEnv) (locale : Locale) (fb : JObj)
    (cf : List String) (e : Entry)
    (h : env.getNodeDigest (env.mId locale.code env.spaceId e.sys.id e.sys.type)
      = some e.sys.updatedAt) :
    processEntry env locale fb cf e = .skipped := by
  unfold processEntry
  simp [h]

/-- A locale pass over entries that are all skipped emits exactly the
content-type node. -/
theorem processLocale_all_skipped (env : NormalizeEnv) (entries : List Entry)
    (locale : Locale)
    (h : ∀ e ∈ entries,
      processEntry env locale (buildFallbackChain env.locales)
        ((env.contentTypeItem.fields.filter
          (fun f => env.restrictedNodeFields.contains f.id)).map (fun f => f.id)) e
        = .skipped) :
    processLocale env entries locale = some [contentTypeNode env] := by
  unfold processLocale
  dsimp only
  rw [List.map_congr_left h]
  induction entries with
  | nil => rfl
  | cons e es ih =>
    rw [List.map_cons]
    exact ih (fun x hx => h x (by simp [hx]))

end Contentful
namespace Contentful

/-- C4: when the store already holds, for every locale-specific entry node id,
a digest equal to the entry's `sys.updatedAt`, a `createNodesForContentType`
pass creates zero entry nodes and zero child nodes — its entire output is one
content-type node per locale — and that content-type node carries the
content-type schema's own `updatedAt` as its digest on every pass. -/
theorem C4_unchanged_snapshot_idempotent (env : NormalizeEnv) (entries : List Entry)
    (h : ∀ locale ∈ env.locales, ∀ e ∈ entries,
      env.getNodeDigest (env.mId locale.code env.spaceId e.sys.id e.sys.type)
        = some e.sys.updatedAt) :
    createNodesForContentType env entries
      = some (env.locales.map (fun _ => contentTypeNode env)) ∧
    jvGet (contentTypeNode env) "internal"
      = .obj [("type", .str (makeTypeName "ContentType")),
              ("contentDigest", .str env.contentTypeItem.sys.updatedAt)] := by
  constructor
  · unfold createNodesForContentType
    have hgen : ∀ ls : List Locale, (∀ l ∈ ls, l ∈ env.locales) →
        ls.foldr
          (fun locale acc =>
            match processLocale env entries locale, acc with
            | some ns, some rest => some (ns ++ rest)
            | _, _ => none)
          (some [])
          = some (ls.map (fun _ => contentTypeNode env)) := by
      intro ls
      induction ls with
      | nil => intro _; rfl
      | cons l ls ih =>
        intro hsub
        rw [List.foldr_cons, ih (fun x hx => hsub x (by simp [hx]))]
        rw [processLocale_all_skipped env entries l
          (fun e he => processEntry_skipped env l _ _ e (h l (hsub l (by simp)) e he))]
        rfl
    exact hgen env.locales (fun _ hx => hx)
  · rfl

end Contentful
namespace Contentful

/-- A concrete content-type schema with one unlocalized Text field. -/
def c4ContentType : ContentType :=
  { sys := { id := "post", updatedAt := "CT1" }, name := "Post",
    displayField := "title", description := "", 
    fields := [{ id := "body", type := "Text", localized := false }] }

/-- A concrete entry of that content type, last updated at `T1`. -/
def c4Entry : Entry :=
  { sys := { id := "e1", type := "Entry", createdAt := "T0", updatedAt := "T1",
             revision := none, contentType := some "post" },
    fields := [("body", .obj [("en-US", .str "hello")])],
    metadataTags := [] }

/-- The environment of the second, unchanged-snapshot pass: the store already
answers every digest probe with `T1`, the digest of the only entry. -/
def c4Env : NormalizeEnv :=
  { contentTypeItem := c4ContentType, restrictedNodeFields := [],
    conflictPre := "contentful", resolvable := [], foreignReferenceMap := [],
    defaultLocale := "en-US", locales := [{ code := "en-US", fallbackCode := none }],
    spaceId := "s1", useNameForId := true, enableTags := false,
    createNodeId := fun s => s, createContentDigest := fun s => s,
    getNodeDigest := fun _ => some "T1", localeFuel := 2 }

/-- Witness for C4 at the concrete unchanged snapshot. -/
theorem C4_unchanged_snapshot_idempotent_witness :
    (∀ locale ∈ c4Env.locales, ∀ e ∈ [c4Entry],
      c4Env.getNodeDigest (c4Env.mId locale.code c4Env.spaceId e.sys.id e.sys.type)
        = some e.sys.updatedAt) ∧
    (createNodesForContentType c4Env [c4Entry]
        = some (c4Env.locales.map (fun _ => contentTypeNode c4Env)) ∧
      jvGet (contentTypeNode c4Env) "internal"
        = .obj [("type", .str (makeTypeName "ContentType")),
                ("contentDigest", .str c4Env.contentTypeItem.sys.updatedAt)]) := by
  have hh : ∀ locale ∈ c4Env.locales, ∀ e ∈ [c4Entry],
      c4Env.getNodeDigest (c4Env.mId locale.code c4Env.spaceId e.sys.id e.sys.type)
        = some e.sys.updatedAt := by
    intro l _ e he
    rw [List.mem_singleton] at he
    subst he
    rfl
  exact ⟨hh, C4_unchanged_snapshot_idempotent c4Env [c4Entry] hh⟩

/-! ## C5: forward-link reference integrity -/

/-- String inequality as a `Bool` disequality of `==`. -/
theorem strBeqFalse {a b : String} (h : a ≠ b) : (a == b) = false := by
  cases hb : a == b with
  | false => rfl
  | true => exact absurd (eq_of_beq hb) h

/-- Every generated `<field>___NODE` name contains the `___` marker. -/
theorem jsIncludes_append_node (x : String) : jsIncludes (x ++ "___NODE") "___" = true := by
  unfold jsIncludes
  rw [decide_eq_true_eq]
  exact ⟨x.toList, "NODE".toList, by rw [List.append_assoc]; rfl⟩

/-- A `<field>___NODE` name never equals a marker-free string. -/
theorem beq_node_left (x y : String) (hy : jsIncludes y "___" = false) :
    ((x ++ "___NODE") == y) = false := by
  cases hb : (x ++ "___NODE") == y with
  | false => rfl
  | true =>
    rw [← eq_of_beq hb, jsIncludes_append_node] at hy
    exact absurd hy (by decide)

/-- A marker-free string never equals a `<field>___NODE` name. -/
theorem beq_node_right (x y : String) (hx : jsIncludes x "___" = false) :
    (x == (y ++ "___NODE")) = false := by
  rw [Bool.beq_comm]
  exact beq_node_left y x hx

/-- Distinct field names give distinct `<field>___NODE` names. -/
theorem beq_node_both (x y : String) (h : (x == y) = false) :
    ((x ++ "___NODE") == (y ++ "___NODE")) = false := by
  cases hb : (x ++ "___NODE") == (y ++ "___NODE") with
  | false => rfl
  | true =>
    have he := eq_of_beq hb
    have hd : x.data ++ "___NODE".data = y.data ++ "___NODE".data := by
      rw [← String.data_append, ← String.data_append, he]
    have hxy : x = y := by
      cases x; cases y
      exact congrArg String.mk (List.append_inj' hd rfl).1
    rw [hxy, beq_self_eq_true] at h
    exact absurd h (by decide)

/-- A key not among an object's keys reads as `undefined`. -/
theorem jsGet_eq_undef_of_forall (o : JObj) (j : String)
    (h : ∀ key ∈ o.map (fun p => p.1), (key == j) = false) :
    jsGet o j = .undef := by
  unfold jsGet
  have hn : o.find? (fun p => p.1 == j) = none := by
    rw [List.find?_eq_none]
    intro p hp
    have := h p.1 (List.mem_map_of_mem _ hp)
    simp [this]
  rw [hn]

/-- A forward-link iteration only touches the processed key and its
`___NODE` companion. -/
theorem linkFieldStep_frame (resolvable : List String) (spaceId : String)
    (mId : String → String → String → String) (fields : JObj) (k' j : String)
    (h1 : (k' == j) = false) (h2 : ((k' ++ "___NODE") == j) = false) :
    jsGet (linkFieldStep resolvable spaceId mId fields k') j = jsGet fields j := by
  unfold linkFieldStep
  cases ht : (jsGet fields k').truthy with
  | false => simp [ht]
  | true =>
    rw [if_neg (by decide : ¬((!true : Bool) = true))]
    cases hv : jsGet fields k'
    all_goals (
      try dsimp only
      split
      · try dsimp only
        rw [jsGet_jsDelete_ne _ _ _ h1]
        split
        · rw [jsGet_jsSet_ne _ _ _ _ h2]
        · rfl
      · rfl)

/-- The forward-link loop over keys away from `k` leaves both `k` and
`k ++ "___NODE"` unread and unwritten. -/
theorem resolveLinks_foldl_frame (resolvable : List String) (spaceId : String)
    (mId : String → String → String → String) (ks : List String) (fields : JObj)
    (j : String)
    (h : ∀ k' ∈ ks, (k' == j) = false ∧ ((k' ++ "___NODE") == j) = false) :
    jsGet (ks.foldl (linkFieldStep resolvable spaceId mId) fields) j = jsGet fields j := by
  induction ks generalizing fields with
  | nil => rfl
  | cons a ks ih =>
    rw [List.foldl_cons, ih _ (fun x hx => h x (List.mem_cons_of_mem _ hx)),
      linkFieldStep_frame _ _ _ _ _ _ (h a (List.mem_cons_self _ _)).1
        (h a (List.mem_cons_self _ _)).2]

/-- The forward-link iteration on an array-of-references field: the raw field
is deleted, and the `___NODE` companion receives the resolvable node-id list
exactly when that list is non-empty. -/
theorem linkFieldStep_self_arr (resolvable : List String) (spaceId : String)
    (mId : String → String → String → String) (fields : JObj) (k : String)
    (elems : List JValue) (hv : jsGet fields k = .arr elems)
    (hh : headHasRefShape elems = true) (hne : (k == k ++ "___NODE") = false) :
    jsGet (linkFieldStep resolvable spaceId mId fields k) k = .undef ∧
    jsGet (linkFieldStep resolvable spaceId mId fields k) (k ++ "___NODE")
      = (if (resolvableEntryItemFieldValue resolvable spaceId mId elems).length != 0
         then .arr (resolvableEntryItemFieldValue resolvable spaceId mId elems)
         else jsGet fields (k ++ "___NODE")) := by
  unfold linkFieldStep
  rw [hv, show (!(JValue.arr elems).truthy) = false from rfl,
    if_neg (by decide : ¬(false = true))]
  try dsimp only
  rw [if_pos hh]
  try dsimp only
  refine ⟨jsGet_jsDelete_self _ _, ?_⟩
  rw [jsGet_jsDelete_ne _ _ _ hne]
  split
  · rw [jsGet_jsSet_self]
  · rfl

/-- The forward-link iteration on a single-reference field: the raw field is
deleted, and the `___NODE` companion receives the node id exactly when the
link's entity key is resolvable. -/
theorem linkFieldStep_self_single (resolvable : List String) (spaceId : String)
    (mId : String → String → String → String) (fields : JObj) (k : String)
    (v : JValue) (hv : jsGet fields k = v) (hr : hasRefShape v = true)
    (hna : ∀ es, v ≠ JValue.arr es) (hne : (k == k ++ "___NODE") = false) :
    jsGet (linkFieldStep resolvable spaceId mId fields k) k = .undef ∧
    jsGet (linkFieldStep resolvable spaceId mId fields k) (k ++ "___NODE")
      = (if resolvable.contains (refKey v)
         then .str (mId spaceId (jvStr (jvGet2 v "sys" "id")) (refLinkTypeOrType v))
         else jsGet fields (k ++ "___NODE")) := by
  have htr : v.truthy = true := by
    unfold hasRefShape at hr
    simp only [Bool.and_eq_true] at hr
    exact hr.1.1.1
  unfold linkFieldStep
  rw [hv, htr]
  rw [if_neg (by decide : ¬((!true : Bool) = true))]
  cases v
  case arr es => exact absurd rfl (hna es)
  all_goals (
    try dsimp only
    rw [if_pos hr]
    try dsimp only
    refine ⟨jsGet_jsDelete_self _ _, ?_⟩
    rw [jsGet_jsDelete_ne _ _ _ hne]
    split
    · rw [jsGet_jsSet_self]
    · rfl)

/-- C5: over the forward-link loop `resolveEntryLinks` (lines 327-385 of
`normalize.js`), for a field object with distinct `___`-free keys: every id
stored in a `<field>___NODE` field comes from a link whose entity key is in
the resolvable set (an array field receives exactly the filtered node-id
list, a single-reference field receives its node id only when resolvable);
an array-valued link field whose resolvable subset is empty gets no
`___NODE` field at all; and the original raw link field always reads as
deleted afterwards. -/
theorem C5_forward_link_integrity (resolvable : List String) (spaceId : String)
    (mId : String → String → String → String) (fields : JObj) (k : String)
    (hnd : (fields.map (fun p => p.1)).Nodup)
    (hfree : ∀ key ∈ fields.map (fun p => p.1), jsIncludes key "___" = false)
    (hmem : k ∈ fields.map (fun p => p.1)) :
    (∀ elems, jsGet fields k = .arr elems → headHasRefShape elems = true →
      jsGet (resolveEntryLinks resolvable spaceId mId fields) k = .undef ∧
      jsGet (resolveEntryLinks resolvable spaceId mId fields) (k ++ "___NODE")
        = (if (resolvableEntryItemFieldValue resolvable spaceId mId elems).length != 0
           then .arr (resolvableEntryItemFieldValue resolvable spaceId mId elems)
           else .undef) ∧
      (∀ x ∈ resolvableEntryItemFieldValue resolvable spaceId mId elems,
        ∃ l ∈ elems, resolvable.contains (refKey l) = true ∧
          x = .str (mId spaceId (jvStr (jvGet2 l "sys" "id")) (refLinkTypeOrType l)))) ∧
    (∀ v, jsGet fields k = v → (∀ elems, v ≠ JValue.arr elems) → hasRefShape v = true →
      jsGet (resolveEntryLinks resolvable spaceId mId fields) k = .undef ∧
      jsGet (resolveEntryLinks resolvable spaceId mId fields) (k ++ "___NODE")
        = (if resolvable.contains (refKey v)
           then .str (mId spaceId (jvStr (jvGet2 v "sys" "id")) (refLinkTypeOrType v))
           else .undef)) := by
  obtain ⟨ks₁, ks₂, hsplit⟩ := List.append_of_mem hmem
  have hnd' : (ks₁ ++ k :: ks₂).Nodup := hsplit ▸ hnd
  have hfree' : ∀ key ∈ ks₁ ++ k :: ks₂, jsIncludes key "___" = false := by
    rw [← hsplit]; exact hfree
  obtain ⟨hnd1, hnd2, hdisj⟩ := List.nodup_append.mp hnd'
  have hk1 : k ∉ ks₁ := fun hk => hdisj hk (List.mem_cons_self _ _)
  have hk2 : k ∉ ks₂ := (List.nodup_cons.mp hnd2).1
  have hkfree : jsIncludes k "___" = false := hfree' k (by simp)
  have hfree1 : ∀ x ∈ ks₁, jsIncludes x "___" = false :=
    fun x hx => hfree' x (List.mem_append_left _ hx)
  have hfree2 : ∀ x ∈ ks₂, jsIncludes x "___" = false :=
    fun x hx => hfree' x (List.mem_append_right _ (List.mem_cons_of_mem _ hx))
  have hne : (k == k ++ "___NODE") = false := beq_node_right k k hkfree
  have hfr1k : ∀ x ∈ ks₁, (x == k) = false ∧ ((x ++ "___NODE") == k) = false :=
    fun x hx => ⟨strBeqFalse (fun he => hk1 (he ▸ hx)), beq_node_left x k hkfree⟩
  have hfr2k : ∀ x ∈ ks₂, (x == k) = false ∧ ((x ++ "___NODE") == k) = false :=
    fun x hx => ⟨strBeqFalse (fun he => hk2 (he ▸ hx)), beq_node_left x k hkfree⟩
  have hfr1n : ∀ x ∈ ks₁,
      (x == k ++ "___NODE") = false ∧ ((x ++ "___NODE") == k ++ "___NODE") = false :=
    fun x hx => ⟨beq_node_right x k (hfree1 x hx),
      beq_node_both x k (strBeqFalse (fun he => hk1 (he ▸ hx)))⟩
  have hfr2n : ∀ x ∈ ks₂,
      (x == k ++ "___NODE") = false ∧ ((x ++ "___NODE") == k ++ "___NODE") = false :=
    fun x hx => ⟨beq_node_right x k (hfree2 x hx),
      beq_node_both x k (strBeqFalse (fun he => hk2 (he ▸ hx)))⟩
  have hfold : resolveEntryLinks resolvable spaceId mId fields
      = ks₂.foldl (linkFieldStep resolvable spaceId mId)
          (linkFieldStep resolvable spaceId mId
            (ks₁.foldl (linkFieldStep resolvable spaceId mId) fields) k) := by
    unfold resolveEntryLinks
    rw [hsplit, List.foldl_append, List.foldl_cons]
  have hF1k : jsGet (ks₁.foldl (linkFieldStep resolvable spaceId mId) fields) k
      = jsGet fields k := resolveLinks_foldl_frame _ _ _ _ _ _ hfr1k
  have hF1n : jsGet (ks₁.foldl (linkFieldStep resolvable spaceId mId) fields)
      (k ++ "___NODE") = .undef := by
    rw [resolveLinks_foldl_frame _ _ _ _ _ _ hfr1n]
    exact jsGet_eq_undef_of_forall _ _
      (fun key hkey => beq_node_right key k (hfree key hkey))
  constructor
  · intro elems hve hhh
    have hstep := linkFieldStep_self_arr resolvable spaceId mId _ k elems
      (hF1k.trans hve) hhh hne
    refine ⟨?_, ?_, ?_⟩
    · rw [hfold, resolveLinks_foldl_frame _ _ _ _ _ _ hfr2k, hstep.1]
    · rw [hfold, resolveLinks_foldl_frame _ _ _ _ _ _ hfr2n, hstep.2, hF1n]
    · intro x hx
      unfold resolvableEntryItemFieldValue at hx
      obtain ⟨l, hl, hval⟩ := List.mem_map.mp hx
      exact ⟨l, List.mem_of_mem_filter hl, (List.mem_filter.mp hl).2, hval.symm⟩
  · intro v hvv hna hshape
    have hstep := linkFieldStep_self_single resolvable spaceId mId _ k v
      (hF1k.trans hvv) hshape hna hne
    refine ⟨?_, ?_⟩
    · rw [hfold, resolveLinks_foldl_frame _ _ _ _ _ _ hfr2k, hstep.1]
    · rw [hfold, resolveLinks_foldl_frame _ _ _ _ _ _ hfr2n, hstep.2, hF1n]

/-- A concrete resolvable link (`sys.id = "id1"`). -/
def c5Link1 : JValue :=
  .obj [("sys", .obj [("type", .str "Link"), ("linkType", .str "Entry"), ("id", .str "id1")])]

/-- A concrete unresolvable link (`sys.id = "id2"`). -/
def c5Link2 : JValue :=
  .obj [("sys", .obj [("type", .str "Link"), ("linkType", .str "Entry"), ("id", .str "id2")])]

/-- A concrete field object: an array link field, a single link field and a
plain text field. -/
def c5Fields : JObj :=
  [("refs", .arr [c5Link1, c5Link2]), ("one", c5Link1), ("title", .str "hi")]

/-- Only `id1___Entry` is resolvable. -/
def c5Resolvable : List String := ["id1___Entry"]

/-- A concrete node-id maker. -/
def c5MId (spaceId id type : String) : String := spaceId ++ "-" ++ id ++ "-" ++ type

/-- Witness for C5 at a concrete entry: both raw link fields are deleted, the
array field's `___NODE` value holds exactly the one resolvable id, and the
single link field's `___NODE` value is its node id. -/
theorem C5_forward_link_integrity_witness :
    jsGet (resolveEntryLinks c5Resolvable "sp" c5MId c5Fields) "refs" = .undef ∧
    jsGet (resolveEntryLinks c5Resolvable "sp" c5MId c5Fields) ("refs" ++ "___NODE")
      = .arr [.str "sp-id1-Entry"] ∧
    jsGet (resolveEntryLinks c5Resolvable "sp" c5MId c5Fields) "one" = .undef ∧
    jsGet (resolveEntryLinks c5Resolvable "sp" c5MId c5Fields) ("one" ++ "___NODE")
      = .str "sp-id1-Entry" := by
  have ha := (C5_forward_link_integrity c5Resolvable "sp" c5MId c5Fields "refs"
      (by decide) (by decide) (by decide)).1 [c5Link1, c5Link2] rfl rfl
  have hb := (C5_forward_link_integrity c5Resolvable "sp" c5MId c5Fields "one"
      (by decide) (by decide) (by decide)).2 c5Link1 rfl
      (fun es h => by simp [c5Link1] at h) rfl
  refine ⟨ha.1, ?_, hb.1, ?_⟩
  · rw [ha.2.1]; rfl
  · rw [hb.2]; rfl

/-! ## C6: reverse references -/

/-- Pushing a reverse edge under a fresh key creates a one-element list. -/
theorem frmGet_frmPush_fresh (m : FRMap) (k : String) (r : ForeignRef)
    (h : frmGet m k = none) : frmGet (frmPush m k r) k = some [r] := by
  unfold frmPush
  rw [h]
  have h0 : m.find? (fun p => p.1 == k) = none := by
    cases hf : m.find? (fun p => p.1 == k) with
    | none => rfl
    | some p => unfold frmGet at h; rw [hf] at h; simp at h
  unfold frmGet
  rw [List.find?_append, h0]
  simp [List.find?_cons]

/-- Pushing a reverse edge under an existing key appends to its list. -/
theorem frmGet_frmPush_existing (m : FRMap) (k : String) (r : ForeignRef)
    (rs : List ForeignRef) (h : frmGet m k = some rs) :
    frmGet (frmPush m k r) k = some (rs ++ [r]) := by
  unfold frmPush
  rw [h]
  obtain ⟨p, hfind⟩ : ∃ p, m.find? (fun q => q.1 == k) = some p := by
    unfold frmGet at h
    cases hf : m.find? (fun q => q.1 == k) with
    | none => rw [hf] at h; simp at h
    | some p => exact ⟨p, rfl⟩
  have hp2 : p.2 = rs := by
    unfold frmGet at h
    rw [hfind] at h
    simpa using h
  have hpk0 := List.find?_some hfind
  have hpk : (p.1 == k) = true := hpk0
  unfold frmGet
  dsimp only
  rw [find?_map_key_preserve _ (fun q => by
    by_cases hc : (q.1 == k) = true <;> simp [hc]) m k, hfind]
  simp [hpk, hp2, eq_of_beq hpk]

/-- One entry whose single field holds a resolvable single reference at the
default locale contributes exactly one `frmPush` of its reverse edge. -/
theorem bfrEntryStep_single_link (resolvable : List String)
    (dl spaceId ctid : String) (m : FRMap) (e : Entry) (key : String)
    (link : JValue) (he : e.fields = [(key, .obj [(dl, link)])])
    (hshape : hasRefShape link = true) (hna : ∀ es, link ≠ JValue.arr es)
    (hres : resolvable.contains (refKey link) = true) :
    bfrEntryStep resolvable dl spaceId ctid m e
      = frmPush m (refKey link) (foreignRefOf ctid e spaceId) := by
  have htr : link.truthy = true := by
    unfold hasRefShape at hshape
    simp only [Bool.and_eq_true] at hshape
    exact hshape.1.1.1
  unfold bfrEntryStep
  rw [he]
  simp only [List.map_cons, List.map_nil, List.foldl_cons, List.foldl_nil]
  unfold bfrFieldStep
  rw [he]
  have hg : jsGet [(key, JValue.obj [(dl, link)])] key = .obj [(dl, link)] := by
    unfold jsGet
    simp [List.find?_cons]
  rw [hg]
  rw [show (!(JValue.obj [(dl, link)]).truthy) = false from rfl,
    if_neg (by decide : ¬(false = true))]
  have hg2 : jvGet (JValue.obj [(dl, link)]) dl = link := by
    unfold jvGet jsGet
    simp [List.find?_cons]
  dsimp only
  rw [hg2]
  cases link
  case arr es => exact absurd rfl (hna es)
  all_goals (
    try dsimp only
    rw [if_pos hshape]
    try dsimp only
    rw [hres, if_neg (by decide : ¬((!true : Bool) = true))])

/-- C6: reverse references.  (1) For a content type with entries `A` and `C`
each holding a resolvable default-locale link to the same target, the foreign
reference map records, under the target's entity key, the two reverse edges
in discovery order, each named from the content type's lower-cased label with
the `___NODE` suffix and carrying the referencing entry's id.  (2) Applying
two such reverse edges to a node whose back-reference field is absent builds
the two node ids as a list in discovery order.  (3) A truthy non-array value
already sitting at the back-reference field name is left untouched. -/
theorem C6_reverse_references
    (ct : ContentType) (A C : Entry) (kA kC dl spaceId : String)
    (useNameForId : Bool) (resolvable : List String) (linkA linkC : JValue)
    (mId : String → String → String → String)
    (rA rC r : ForeignRef) (fieldsB fieldsB' : JObj) (v : JValue)
    (hA : A.fields = [(kA, .obj [(dl, linkA)])])
    (hC : C.fields = [(kC, .obj [(dl, linkC)])])
    (hshA : hasRefShape linkA = true) (hnaA : ∀ es, linkA ≠ JValue.arr es)
    (hresA : resolvable.contains (refKey linkA) = true)
    (hshC : hasRefShape linkC = true) (hnaC : ∀ es, linkC ≠ JValue.arr es)
    (hresC : resolvable.contains (refKey linkC) = true)
    (hkeq : refKey linkC = refKey linkA)
    (hname : rC.name = rA.name)
    (hfalsy : (jsGet fieldsB rA.name).truthy = false)
    (hv : jsGet fieldsB' r.name = v) (htr : v.truthy = true)
    (hnav : ∀ xs, v ≠ JValue.arr xs) :
    frmGet (buildForeignReferenceMap [ct] [[A, C]] resolvable dl spaceId useNameForId)
        (refKey linkA)
      = some [foreignRefOf (if useNameForId then jsToLower ct.name
                            else jsToLower ct.sys.id) A spaceId,
              foreignRefOf (if useNameForId then jsToLower ct.name
                            else jsToLower ct.sys.id) C spaceId] ∧
    jsGet (applyForeignReferences fieldsB [rA, rC] mId) rA.name
      = .arr [.str (mId rA.spaceId rA.id rA.type),
              .str (mId rC.spaceId rC.id rC.type)] ∧
    applyForeignReferences fieldsB' [r] mId = fieldsB' := by
  refine ⟨?_, ?_, ?_⟩
  · unfold buildForeignReferenceMap
    simp only [List.zip_cons_cons, List.zip_nil_right, List.foldl_cons, List.foldl_nil]
    try dsimp only
    try simp only [List.foldl_cons, List.foldl_nil]
    rw [bfrEntryStep_single_link resolvable dl spaceId _ [] A kA linkA hA hshA hnaA hresA,
      bfrEntryStep_single_link resolvable dl spaceId _ _ C kC linkC hC hshC hnaC hresC,
      hkeq]
    exact frmGet_frmPush_existing _ (refKey linkA) _ _
      (frmGet_frmPush_fresh [] (refKey linkA) _ rfl)
  · unfold applyForeignReferences
    simp only [List.foldl_cons, List.foldl_nil]
    try dsimp only
    rw [hname, hfalsy, if_neg (by decide : ¬(false = true))]
    have h1 : jsGet (jsSet fieldsB rA.name
        (JValue.arr [JValue.str (mId rA.spaceId rA.id rA.type)])) rA.name
        = JValue.arr [JValue.str (mId rA.spaceId rA.id rA.type)] :=
      jsGet_jsSet_self _ _ _
    rw [h1,
      if_pos (show (JValue.arr [JValue.str (mId rA.spaceId rA.id rA.type)]).truthy = true
        from rfl)]
    try dsimp only
    rw [jsGet_jsSet_self]
    rfl
  · unfold applyForeignReferences
    simp only [List.foldl_cons, List.foldl_nil]
    try dsimp only
    rw [hv, htr, if_pos (show (true : Bool) = true from rfl)]
    cases v
    case arr xs => exact absurd rfl (hnav xs)
    all_goals rfl

/-- A concrete link authored in `A` and `C`, targeting entry `idB`. -/
def c6LinkA : JValue :=
  .obj [("sys", .obj [("type", .str "Link"), ("linkType", .str "Entry"), ("id", .str "idB")])]

/-- A concrete content type labelled `BlogPost`. -/
def c6CT : ContentType :=
  { sys := { id := "blogPost", updatedAt := "2020" }
    name := "BlogPost"
    displayField := "title"
    description := ""
    fields := [] }

/-- Entry `A`, linking to `idB` from its `ref` field. -/
def c6A : Entry :=
  { sys := { id := "idA", type := "Entry", createdAt := "2020", updatedAt := "2020",
             revision := none, contentType := none }
    fields := [("ref", .obj [("en-US", c6LinkA)])]
    metadataTags := [] }

/-- Entry `C`, also linking to `idB`. -/
def c6C : Entry :=
  { sys := { id := "idC", type := "Entry", createdAt := "2020", updatedAt := "2020",
             revision := none, contentType := none }
    fields := [("ref", .obj [("en-US", c6LinkA)])]
    metadataTags := [] }

/-- The target `idB___Entry` is resolvable. -/
def c6Resolvable : List String := ["idB___Entry"]

/-- A concrete node-id maker. -/
def c6MId (spaceId id type : String) : String := spaceId ++ "-" ++ id ++ "-" ++ type

/-- The reverse edge recorded for entry `A`. -/
def c6RefA : ForeignRef := foreignRefOf "blogpost" c6A "sp"

/-- The reverse edge recorded for entry `C`. -/
def c6RefC : ForeignRef := foreignRefOf "blogpost" c6C "sp"

/-- Target node fields without a back-reference field. -/
def c6FieldsB : JObj := [("title", .str "B")]

/-- Target node fields already holding a single string at the
back-reference name. -/
def c6FieldsB2 : JObj := [("blogpost___NODE", .str "existing")]

/-- Witness for C6 at concrete entries: the map records both reverse edges in
discovery order under `idB___Entry` with the `blogpost___NODE` name; applying
them accumulates both node ids as a list in discovery order; a pre-existing
single string at that name is untouched. -/
theorem C6_reverse_references_witness :
    frmGet (buildForeignReferenceMap [c6CT] [[c6A, c6C]] c6Resolvable "en-US" "sp" true)
        "idB___Entry"
      = some [c6RefA, c6RefC] ∧
    jsGet (applyForeignReferences c6FieldsB [c6RefA, c6RefC] c6MId) "blogpost___NODE"
      = .arr [.str "sp-idA-Entry", .str "sp-idC-Entry"] ∧
    applyForeignReferences c6FieldsB2 [c6RefA] c6MId = c6FieldsB2 := by
  obtain ⟨h1, h2, h3⟩ := C6_reverse_references c6CT c6A c6C "ref" "ref" "en-US" "sp"
    true c6Resolvable c6LinkA c6LinkA c6MId c6RefA c6RefC c6RefA c6FieldsB c6FieldsB2
    (.str "existing") rfl rfl rfl (fun es h => by simp [c6LinkA] at h) rfl rfl
    (fun es h => by simp [c6LinkA] at h) rfl rfl rfl rfl rfl rfl
    (fun xs h => by simp at h)
  exact ⟨h1.trans rfl, h2.trans rfl, h3⟩

end Contentful
